import Mathlib

/-!
Verification of the vocabulary-extraction scripts of this repository.

The Python sources are shallowly embedded over `List Char` (one list entry per
Unicode code point, matching Python's `str` indexing and `len`).  Python string
methods (`strip`, `lstrip`, `lower`, `split`, `in`, ...) are modelled by the
`py*` helpers below, and each regular expression of the source is hand-compiled
to a dedicated recogniser that follows the pattern text.  Operations that can
raise in Python (indexing `text[0]` on an empty string) are modelled with
`Option`: `none` is an uncaught exception.

Note on characters: the repository file `scripts/create_anki_from_images.py`
is stored with a damaged encoding, so the German umlaut characters appear in
the source as CJK code points (for example U+76F2 where an a-umlaut was
intended).  The embedding uses exactly the code points stored in the file,
since the file is the authority on what the program compares against.

Python's `str.lower`/`str.isupper`/`str.islower`/`str.isalpha` are modelled on
the character repertoire that can reach these scripts (ASCII, Latin-1 letters,
and the CJK code points stored in the source); other code points are treated
as uncased, as Python does for the CJK code points themselves.
-/

namespace AnkiVerify

/-- Apostrophe character (U+0027). -/
def apos : Char := Char.ofNat 39

/-- Double-quote character (U+0022). -/
def quot : Char := Char.ofNat 34

/- The seven code points stored in `german_indicators` in the source
   (damaged-encoding forms of a-umlaut, o-umlaut, u-umlaut, sharp-s and the
   three capital umlauts). -/
def cjae : Char := Char.ofNat 0x76F2
def cjoe : Char := Char.ofNat 0x679A
def cjue : Char := Char.ofNat 0x7709
def cjss : Char := Char.ofNat 0x813D
def cjAe : Char := Char.ofNat 0x811B
def cjOe : Char := Char.ofNat 0x8130
def cjUe : Char := Char.ofNat 0x813A

/-- Code point stored where a left guillemet was intended (line 195/204). -/
def cjGuL : Char := Char.ofNat 0x82A6

/-- Code point stored where a right guillemet was intended (line 204). -/
def cjGuR : Char := Char.ofNat 0x7984

/-- Python whitespace for `str.strip()` / `\s` (ASCII repertoire). -/
def isPySpace (c : Char) : Bool :=
  c = ' ' || c = '\t' || c = '\n' || c = '\x0d' || c = Char.ofNat 11 || c = Char.ofNat 12

/-- `[0-9]`, Python `\d` (ASCII). -/
def isDigitCh (c : Char) : Bool := 48 ≤ c.toNat && c.toNat ≤ 57

/-- Regex class `[a-z]`. -/
def isAsciiLowerCh (c : Char) : Bool := 97 ≤ c.toNat && c.toNat ≤ 122

/-- Regex class `[A-Z]`. -/
def isAsciiUpperCh (c : Char) : Bool := 65 ≤ c.toNat && c.toNat ≤ 90

/-- Regex class `[a-zA-Z]`. -/
def isAsciiAlpha (c : Char) : Bool := isAsciiLowerCh c || isAsciiUpperCh c

/-- The uppercase/lowercase pairs of Python `str.lower` on the repertoire
    reaching this program: ASCII plus the Latin-1 uppercase letters. -/
def lowerPairs : List (Char × Char) :=
  [('A','a'),('B','b'),('C','c'),('D','d'),('E','e'),('F','f'),('G','g'),
   ('H','h'),('I','i'),('J','j'),('K','k'),('L','l'),('M','m'),('N','n'),
   ('O','o'),('P','p'),('Q','q'),('R','r'),('S','s'),('T','t'),('U','u'),
   ('V','v'),('W','w'),('X','x'),('Y','y'),('Z','z'),
   ('À','à'),('Á','á'),('Â','â'),('Ã','ã'),('Ä','ä'),('Å','å'),('Æ','æ'),
   ('Ç','ç'),('È','è'),('É','é'),('Ê','ê'),('Ë','ë'),('Ì','ì'),('Í','í'),
   ('Î','î'),('Ï','ï'),('Ð','ð'),('Ñ','ñ'),('Ò','ò'),('Ó','ó'),('Ô','ô'),
   ('Õ','õ'),('Ö','ö'),('Ø','ø'),('Ù','ù'),('Ú','ú'),('Û','û'),('Ü','ü'),
   ('Ý','ý'),('Þ','þ')]

/-- Lowercase letters of the repertoire (for Python `islower`). -/
def lowerChars : List Char :=
  ['a','b','c','d','e','f','g','h','i','j','k','l','m','n','o','p','q','r',
   's','t','u','v','w','x','y','z',
   'ß','à','á','â','ã','ä','å','æ','ç','è','é','ê','ë','ì','í','î','ï','ð',
   'ñ','ò','ó','ô','õ','ö','ø','ù','ú','û','ü','ý','þ','ÿ']

/-- Python `str.lower` on one character. -/
def lowerCh (c : Char) : Char := (lowerPairs.lookup c).getD c

/-- Python `str.lower` on a string. -/
def pyLower (l : List Char) : List Char := l.map lowerCh

/-- Python `c.isupper()` for a single character. -/
def isUpperCh (c : Char) : Bool := lowerPairs.any (fun p => p.1 = c)

/-- Python `c.islower()` for a single character. -/
def isLowerCh (c : Char) : Bool := lowerChars.contains c

/-- The indicator code points stored in `german_indicators` (source line 178
    and line 626). -/
def germanIndicators : List Char := [cjae, cjoe, cjue, cjss, cjAe, cjOe, cjUe]

/-- Python `c.isalpha()` on the repertoire (the CJK code points stored in the
    source are alphabetic for Python). -/
def isAlphaPy (c : Char) : Bool :=
  isAsciiAlpha c || isUpperCh c || isLowerCh c || germanIndicators.contains c

/-- Python `s.isalpha()`: nonempty and all characters alphabetic. -/
def pyIsAlpha (l : List Char) : Bool := !l.isEmpty && l.all isAlphaPy

/-- Python `\w` (word character) on the repertoire. -/
def isWordCh (c : Char) : Bool := isAlphaPy c || isDigitCh c || c = '_'

/-- Drop trailing characters satisfying `p`. -/
def dropTrailing (p : Char → Bool) (l : List Char) : List Char :=
  (l.reverse.dropWhile p).reverse

/-- Python `s.strip()`. -/
def pyStrip (l : List Char) : List Char :=
  dropTrailing isPySpace (l.dropWhile isPySpace)

/-- Python `s.lstrip(set)`. -/
def pyLStrip (p : Char → Bool) (l : List Char) : List Char := l.dropWhile p

/-- Python `s.rstrip(set)`. -/
def pyRStrip (p : Char → Bool) (l : List Char) : List Char := dropTrailing p l

/-- Python `s.strip(set)`. -/
def pyStripSet (p : Char → Bool) (l : List Char) : List Char :=
  dropTrailing p (l.dropWhile p)

/-- Python prefix test `s.startswith(pre)`. -/
def startsWithL (pre l : List Char) : Bool := List.isPrefixOf pre l

/-- Python suffix test `s.endswith(suf)`. -/
def endsWithL (suf l : List Char) : Bool := List.isPrefixOf suf.reverse l.reverse

/-- Python substring test `needle in hay`. -/
def containsSub : List Char → List Char → Bool
  | n, [] => List.isPrefixOf n []
  | n, c :: t => List.isPrefixOf n (c :: t) || containsSub n t

/-- Python `s.count(c)` for a single character. -/
def countCh (c : Char) (l : List Char) : Nat := (l.filter (fun x => x = c)).length

/-- Helper for `splitWs` carrying the current (reversed) word. -/
def splitWsAux : List Char → List Char → List (List Char)
  | [], [] => []
  | [], w => [w.reverse]
  | c :: r, w =>
    if isPySpace c then
      if w.isEmpty then splitWsAux r [] else w.reverse :: splitWsAux r []
    else splitWsAux r (c :: w)

/-- Python `s.split()` (split on whitespace runs, no empty items). -/
def splitWs (l : List Char) : List (List Char) := splitWsAux l []

/-- Python `s.split(sep)` for a one-character separator. -/
def splitOnCh (sep : Char) : List Char → List (List Char)
  | [] => [[]]
  | c :: r =>
    if c = sep then [] :: splitOnCh sep r
    else
      match splitOnCh sep r with
      | [] => [[c]]
      | w :: ws => (c :: w) :: ws

/-- Last character test, Python `s.endswith(c)` for one character. -/
def lastCharIs (c : Char) (l : List Char) : Bool :=
  match l.getLast? with
  | some d => d = c
  | none => false

/-- Builds a string containing an apostrophe: `a ++ apostrophe ++ b`. -/
def wap (a b : String) : List Char := a.toList ++ apos :: b.toList

/-! ## Word lists of `parse_english_vocabulary`
(source: `scripts/create_anki_from_images.py`, lines 163-221, 270-274) -/

/-- `german_starters` (source lines 181-185). -/
def germanStarters : List (List Char) :=
  ["der ", "die ", "das ", "ein ", "eine ", "etw.", "jdn.", "jdm.", "jmd.",
   "sich ", "(sich)", "(tun)", "(zu)", "(mit)"].map String.toList ++
  [('(' :: cjue :: "ber)".toList)] ++
  ["(auf)", "(an)", "anderen", "anderer", "Meinung", "nicht", "sein; ",
   "haben; "].map String.toList

/-- `skip_substrings` (source line 204). -/
def skipSubstrings : List (List Char) :=
  ["->".toList, [cjGuL], [cjGuR], " = ".toList, "] (pl)".toList,
   "(pl.)".toList, "(sing.)".toList]

/-- `english_sentence_starters` (source lines 207-221). -/
def englishSentenceStarters : List (List Char) :=
  ["I ".toList, wap "I" "m ", wap "I" "ve ", wap "I" "d ", wap "I" "ll ",
   "You ".toList, wap "You" "re ", wap "You" "ve ", wap "You" "d ",
   wap "You" "ll ",
   "He ".toList, wap "He" "s ", wap "He" "d ", wap "He" "ll ",
   "She ".toList, wap "She" "s ", wap "She" "d ", wap "She" "ll ",
   "We ".toList, wap "We" "re ", wap "We" "ve ", wap "We" "d ",
   wap "We" "ll ",
   "They ".toList, wap "They" "re ", wap "They" "ve ", wap "They" "d ",
   wap "They" "ll ",
   "It ".toList, wap "It" "s ", wap "It" "d ", wap "It" "ll ",
   "Its ".toList,
   "My ".toList, "Your ".toList, "His ".toList, "Her ".toList,
   "Our ".toList, "Their ".toList,
   "The ".toList, "A ".toList, "An ".toList, "Some ".toList, "Any ".toList,
   "This ".toList, "That ".toList, "These ".toList, "Those ".toList,
   "If ".toList, "When ".toList, "Where ".toList, "What ".toList,
   "Why ".toList, "How ".toList, "Who ".toList,
   "Are ".toList, "Is ".toList, "Was ".toList, "Were ".toList,
   "Do ".toList, "Does ".toList, "Did ".toList,
   "Have ".toList, "Has ".toList, "Had ".toList, "Can ".toList,
   "Could ".toList, "Will ".toList, "Would ".toList, "Should ".toList,
   "Never ".toList, "Always ".toList, "Just ".toList, "With ".toList,
   "As ".toList, "To ".toList, "For ".toList, "From ".toList,
   "Arms ".toList, "Sports ".toList, "There ".toList]

/-- `german_patterns` inside `is_likely_german` (source line 270). -/
def germanPatterns : List (List Char) :=
  ["ss", "ck", "sch", "tzt", "ngen", "ung", "heit", "keit", "rden",
   "eich"].map String.toList

/-- `common_german_words` inside `is_likely_german` (source lines 271-274). -/
def commonGermanWords : List (List Char) :=
  ["werden", "haben", "machen", "gehen", "kommen", "nehmen",
   "sehen", "geben", "wissen"].map String.toList ++
  [('k' :: cjoe :: "nnen".toList), ('m' :: cjue :: "ssen".toList)] ++
  ["wollen", "sollen"].map String.toList ++
  [('d' :: cjue :: "rfen".toList)] ++
  ["lassen", "bleiben", "finden", "denken",
   "vergleichbar", "digital", "blond"].map String.toList

/-- `incomplete_endings` (source lines 452 and 587). -/
def incompleteEndings : List (List Char) :=
  ["nicht", "und", "oder", "bei", "von"].map String.toList ++
  [('f' :: cjue :: "r".toList)] ++
  ["das", "der", "die"].map String.toList

/-! ## Line-classification predicates of `parse_english_vocabulary` -/

/-- Regex `^\w+ ->` (a word, a space, an arrow, then anything). -/
def matchWordArrow (text : List Char) : Bool :=
  let w := text.takeWhile isWordCh
  !w.isEmpty && startsWithL " ->".toList (text.drop w.length)

/-- Regex `^[a-z]+ = [a-z]+`. -/
def matchSynonymEq (text : List Char) : Bool :=
  let w := text.takeWhile isAsciiLowerCh
  !w.isEmpty &&
    (let r := text.drop w.length
     startsWithL " = ".toList r &&
       match r.drop 3 with
       | c :: _ => isAsciiLowerCh c
       | [] => false)

/-- Regex `^[a-z]+ <guillemet>`. -/
def matchAntonymMark (text : List Char) : Bool :=
  let w := text.takeWhile isAsciiLowerCh
  !w.isEmpty && startsWithL [' ', cjGuL] (text.drop w.length)

/-- Regex `\d{3}$` used with `re.match`: anchored at the start, so it accepts
    exactly a three-digit string. -/
def matchThreeDigits (text : List Char) : Bool :=
  text.length = 3 && text.all isDigitCh

/-- Regex `\[[^\]]+\]` used with `re.match`: anchored at the start, so the
    line must begin with a nonempty bracket group. -/
def matchLeadingBracketGroup (text : List Char) : Bool :=
  match text with
  | '[' :: r =>
    let g := r.takeWhile (fun c => c ≠ ']')
    !g.isEmpty && (r.drop g.length).head? = some ']'
  | _ => false

/-- The `skip_line_patterns` disjunction (source lines 188-201). -/
def skipLinePatternsMatch (text : List Char) : Bool :=
  startsWithL "Fr.".toList text ||
  startsWithL "Lat.".toList text ||
  startsWithL "!".toList text ||
  startsWithL "->".toList text ||
  matchWordArrow text ||
  matchSynonymEq text ||
  matchAntonymMark text ||
  matchThreeDigits text ||
  startsWithL "[".toList text ||
  startsWithL "one hundred".toList text ||
  startsWithL "two hundred".toList text ||
  matchLeadingBracketGroup text ||
  startsWithL "to me ".toList text ||
  startsWithL "to you ".toList text ||
  startsWithL "to him ".toList text ||
  startsWithL "to her ".toList text

/-- `should_skip_line` (source lines 223-234). -/
def should_skip_line (text : List Char) : Bool :=
  if text.isEmpty then true
  else if skipSubstrings.any (fun s => containsSub s text) then true
  else skipLinePatternsMatch text

/-- Regex `^to [a-z]+` (source lines 254 and 298). -/
def matchToLowerVerb (text : List Char) : Bool :=
  startsWithL "to ".toList text &&
    match text.drop 3 with
    | c :: _ => isAsciiLowerCh c
    | [] => false

/-- `is_english_sentence` (source lines 282-289). -/
def is_english_sentence (text : List Char) : Bool :=
  if text.isEmpty then false
  else 30 < text.length && englishSentenceStarters.any (fun s => startsWithL s text)

/-- `is_likely_german` (source lines 236-280).  The result is `none` when the
    Python code would raise (it never does: every index is guarded). -/
def is_likely_german (text : List Char) : Option Bool :=
  if text.length < 2 then some false
  else if should_skip_line text then some false
  else if germanIndicators.any (fun c => text.contains c) then some true
  else if germanStarters.any (fun s => startsWithL s text) then some true
  else if matchToLowerVerb text then some false
  else
    match text with
    | [] => none
    | c0 :: _ =>
      if isUpperCh c0 && text.length < 40 &&
         !(englishSentenceStarters.any (fun s => startsWithL s text)) then some true
      else if isLowerCh c0 && text.length < 50 &&
              (text.contains ';' || text.contains '/') then some true
      else if isLowerCh c0 && text.length < 25 && (splitWs text).length = 1 then
        if germanPatterns.any (fun p => containsSub p (pyLower text)) then some true
        else if commonGermanWords.contains (pyLower text) then some true
        else some false
      else some false

/-- `is_continuation` (source lines 291-304). -/
def is_continuation (text : List Char) : Option Bool :=
  if text.length < 2 then some false
  else if should_skip_line text then some false
  else if matchToLowerVerb text then some false
  else
    match text with
    | [] => none
    | c0 :: _ =>
      some ((isLowerCh c0 || germanIndicators.any (fun c => text.contains c)) &&
            text.length < 50 && !is_english_sentence text)

/-- One `skip_patterns` step of the main loop (source lines 164-175), with
    `re.IGNORECASE`. -/
def matchesSkipPatterns (line : List Char) : Bool :=
  let low := pyLower line
  (!line.isEmpty && line.all isDigitCh) ||
  startsWithL "one hundred".toList low ||
  startsWithL "two hundred".toList low ||
  startsWithL "three hundred".toList low ||
  (startsWithL "unit ".toList low &&
    (match low.drop 5 with | c :: _ => isDigitCh c | [] => false)) ||
  low = "check-in".toList || low = "vocabulary".toList ||
  low = "media collocations".toList ||
  low = "media".toList || low = "verb".toList || low = "collocations".toList ||
  low = "translation".toList ||
  low = "print media".toList || low = "tv".toList || low = "radio".toList ||
  low = "online media".toList || low = "social media".toList ||
  low = "describing developments".toList ||
  low = "adjective collocations".toList ||
  low = "nouns and adjectives".toList ||
  low = "nouns and verbs with the same form".toList ||
  startsWithL "skills:".toList low ||
  startsWithL "unit task:".toList low ||
  startsWithL "story:".toList low ||
  startsWithL "across cultures".toList low ||
  (startsWithL "focus ".toList low &&
    (match low.drop 6 with | c :: _ => isDigitCh c | [] => false)) ||
  (startsWithL "station ".toList low &&
    (match low.drop 8 with | c :: _ => isDigitCh c | [] => false))

/-! ## Hand-compiled pattern matchers of the segmentation engine -/

/-- Class `[a-zA-Z\s\'\-\(\)\.\/\+\,\?!]` (patterns 1 and the lookahead word
    pattern). -/
def classP1 (c : Char) : Bool :=
  isAsciiAlpha c || isPySpace c || c = apos || c = '-' || c = '(' || c = ')' ||
  c = '.' || c = '/' || c = '+' || c = ',' || c = '?' || c = '!'

/-- Class `[a-zA-Z\s\'\-]`. -/
def classC3 (c : Char) : Bool :=
  isAsciiAlpha c || isPySpace c || c = apos || c = '-'

/-- Class `[a-zA-Z\s\'\-\,]`. -/
def classC2 (c : Char) : Bool := classC3 c || c = ','

/-- Class `[a-zA-Z\-]`. -/
def classWordHy (c : Char) : Bool := isAsciiAlpha c || c = '-'

/-- Class `[a-zA-Z<umlauts>]` — first character of the inline-German group. -/
def classG2first (c : Char) : Bool := isAsciiAlpha c || germanIndicators.contains c

/-- Class `[a-zA-Z<umlauts>\-\/\s]` — body of the inline-German group. -/
def classG2 (c : Char) : Bool := classG2first c || c = '-' || c = '/' || isPySpace c

/-- Leading junk class `[\*"\d\s]`. -/
def junkLead (c : Char) : Bool := c = '*' || c = quot || isDigitCh c || isPySpace c

/-- Leading junk class `[\*"\d\s\']`. -/
def junkLeadA (c : Char) : Bool := junkLead c || c = apos

/-- Characters of Python `lstrip('*"0123456789 ')`. -/
def junkStripSet (c : Char) : Bool := c = '*' || c = quot || isDigitCh c || c = ' '

/-- Characters of Python `lstrip('*"\0123456789 ')` with an apostrophe. -/
def junkStripSetA (c : Char) : Bool := junkStripSet c || c = apos

/-- Tail option `(?:\s*\((?:pl|sing)\.\?\)?)?` of pattern 1 (a literal dot,
    a literal question mark, an optional closing parenthesis). -/
def p1OptMarker (r : List Char) : Bool :=
  let r1 := r.dropWhile isPySpace
  r1 = "(pl.?".toList || r1 = "(pl.?)".toList ||
  r1 = "(sing.?".toList || r1 = "(sing.?)".toList

/-- Matches `\]?(?:\s*\((?:pl|sing)\.\?\)?)?$` (end of pattern 1). -/
def p1TailEnd (r : List Char) : Bool :=
  match r with
  | [] => true
  | ']' :: r2 => r2.isEmpty || p1OptMarker r2
  | _ => p1OptMarker r

/-- Matches `\s*\[([^\]]+)\]` followed by `p1TailEnd`, returning group 2. -/
def p1AfterGroup (r : List Char) : Option (List Char) :=
  match r.dropWhile isPySpace with
  | '[' :: r1 =>
    let g2 := r1.takeWhile (fun c => c ≠ ']')
    if g2.isEmpty then none
    else
      match r1.drop g2.length with
      | ']' :: r2 => if p1TailEnd r2 then some g2 else none
      | _ => none
  | _ => none

/-- Non-greedy extension of group 1 of pattern 1: the group is `c0` plus at
    least one more class character, extended minimally until the tail
    matches. -/
def p1LazyExt (c0 : Char) (midRev rest : List Char) : Option (List Char × List Char) :=
  match rest with
  | [] => none
  | c :: rest' =>
    if classP1 c then
      match p1AfterGroup rest' with
      | some g2 => some (c0 :: (c :: midRev).reverse, g2)
      | none => p1LazyExt c0 (c :: midRev) rest'
    else none

/-- Pattern 1 (source line 328):
    `^[\*"\d\s]*([a-zA-Z][a-zA-Z\s\'\-\(\)\.\/\+\,\?!]+?)\s*\[([^\]]+)\]\]?(?:\s*\((?:pl|sing)\.\?\)?)?$`. -/
def matchPat1 (line : List Char) : Option (List Char × List Char) :=
  match line.dropWhile junkLead with
  | c :: rest => if isAsciiAlpha c then p1LazyExt c [] rest else none
  | [] => none

/-- Matches `\s*(?:\((?:pl|sing)\.?\))?$` (end of the first alternate). -/
def a2End (r : List Char) : Bool :=
  let r1 := r.dropWhile isPySpace
  r1.isEmpty || r1 = "(pl)".toList || r1 = "(pl.)".toList ||
  r1 = "(sing)".toList || r1 = "(sing.)".toList

/-- Matches the optional second word `,\s*\w+\s*\[[^\]]+\]\]?` of the first
    alternate, returning the possible remainders (two when the optional
    second closing bracket may or may not be consumed). -/
def a2SecondRems (r : List Char) : List (List Char) :=
  match r with
  | ',' :: r1 =>
    let r2 := r1.dropWhile isPySpace
    let w := r2.takeWhile isWordCh
    if w.isEmpty then []
    else
      match (r2.drop w.length).dropWhile isPySpace with
      | '[' :: r3 =>
        let g := r3.takeWhile (fun c => c ≠ ']')
        if g.isEmpty then []
        else
          match r3.drop g.length with
          | ']' :: r4 =>
            match r4 with
            | ']' :: r5 => [r5, r4]
            | _ => [r4]
          | _ => []
      | _ => []
  | _ => []

/-- Tail of the first alternate after the first bracket group:
    `\]?(?:,\s*\w+\s*\[[^\]]+\]\]?)?\s*(?:\((?:pl|sing)\.?\))?$`. -/
def a2Tail (r : List Char) : Bool :=
  let afterOpt : List Char → Bool := fun s => (a2SecondRems s).any a2End || a2End s
  (match r with
   | ']' :: r2 => afterOpt r2
   | _ => false) || afterOpt r

/-- After the group of the first alternate: `\[[^\]]+\]` plus `a2Tail`. -/
def a2AfterRun (r : List Char) : Bool :=
  match r with
  | d :: r1 =>
    if d = '[' then
      let g := r1.takeWhile (fun x => x ≠ ']')
      if g.isEmpty then false
      else
        match r1.drop g.length with
        | e :: r2 => if e = ']' then a2Tail r2 else false
        | [] => false
    else false
  | [] => false

/-- First alternate of pattern 1 (source line 331):
    `^[\*"\d\s]*([a-zA-Z][a-zA-Z\s\'\-\,]+)\s*\[[^\]]+\]\]?(?:,\s*\w+\s*\[[^\]]+\]\]?)?\s*(?:\((?:pl|sing)\.?\))?$`. -/
def matchPatA2 (line : List Char) : Option (List Char) :=
  match line.dropWhile junkLead with
  | c :: rest =>
    if isAsciiAlpha c then
      let run := rest.takeWhile classC2
      if !run.isEmpty && a2AfterRun (rest.drop run.length) then some (c :: run)
      else none
    else none
  | [] => none

/-- After the group of the second alternate: `\[[^\]]+\]\]$`. -/
def a3AfterRun (r : List Char) : Bool :=
  match r with
  | d :: r1 =>
    if d = '[' then
      let g := r1.takeWhile (fun x => x ≠ ']')
      if g.isEmpty then false
      else
        match r1.drop g.length with
        | e :: r2 => if e = ']' then r2 = [']'] else false
        | [] => false
    else false
  | [] => false

/-- Second alternate of pattern 1 (source line 334):
    `^[\*"\d\s]*([a-zA-Z][a-zA-Z\s\'\-]+)\s*\[[^\]]+\]\]$`. -/
def matchPatA3 (line : List Char) : Option (List Char) :=
  match line.dropWhile junkLead with
  | c :: rest =>
    if isAsciiAlpha c then
      let run := rest.takeWhile classC3
      if !run.isEmpty && a3AfterRun (rest.drop run.length) then some (c :: run)
      else none
    else none
  | [] => none

/-- After the group of pattern 4: `\[[^\]]+\],\s*\w+\s*\(pl\)$`. -/
def p4AfterRun (r : List Char) : Bool :=
  match r with
  | d :: r1 =>
    if d = '[' then
      let g := r1.takeWhile (fun x => x ≠ ']')
      if g.isEmpty then false
      else
        match r1.drop g.length with
        | e :: r2 =>
          if e = ']' then
            match r2 with
            | f :: r3 =>
              if f = ',' then
                let r4 := r3.dropWhile isPySpace
                let w := r4.takeWhile isWordCh
                !w.isEmpty &&
                  (r4.drop w.length).dropWhile isPySpace = "(pl)".toList
              else false
            | [] => false
          else false
        | [] => false
    else false
  | [] => false

/-- Pattern 4 (source line 369):
    `^[\*"\d\s]*([a-zA-Z][a-zA-Z\s\'\-]+)\s*\[[^\]]+\],\s*\w+\s*\(pl\)$`. -/
def matchPat4 (line : List Char) : Option (List Char) :=
  match line.dropWhile junkLead with
  | c :: rest =>
    if isAsciiAlpha c then
      let run := rest.takeWhile classC3
      if !run.isEmpty && p4AfterRun (rest.drop run.length) then some (c :: run)
      else none
    else none
  | [] => none

/-- One attempt of the `re.findall` pattern of pattern 7
    (`([a-zA-Z][a-zA-Z\-]+)\s*\[[^\]]+\]`) at the head of `l`. -/
def p7TryAt (l : List Char) : Option (List Char) :=
  match l with
  | c :: rest =>
    if isAsciiAlpha c then
      let run := rest.takeWhile classWordHy
      if run.isEmpty then none
      else
        match (rest.drop run.length).dropWhile isPySpace with
        | '[' :: r1 =>
          let g := r1.takeWhile (fun x => x ≠ ']')
          if g.isEmpty then none
          else
            match r1.drop g.length with
            | ']' :: _ => some (c :: run)
            | _ => none
        | _ => none
    else none
  | [] => none

/-- First match of the pattern-7 `findall` (source line 341). -/
def p7FindFirst : List Char → Option (List Char)
  | [] => none
  | c :: t =>
    match p7TryAt (c :: t) with
    | some w => some w
    | none => p7FindFirst t

/-- After the group of pattern 3: `\[[^\]]+\]\s+(<german group>)$`,
    returning the German group. -/
def inlineAfterRun (r : List Char) : Option (List Char) :=
  match r with
  | d :: r1 =>
    if d = '[' then
      let g := r1.takeWhile (fun x => x ≠ ']')
      if g.isEmpty then none
      else
        match r1.drop g.length with
        | e :: r2 =>
          if e = ']' then
            let sp := r2.takeWhile isPySpace
            if sp.isEmpty then none
            else
              match r2.drop sp.length with
              | f :: rest2 =>
                if classG2first f && !rest2.isEmpty && rest2.all classG2 then
                  some (f :: rest2)
                else none
              | [] => none
          else none
        | [] => none
    else none
  | [] => none

/-- Pattern 3 (source line 358):
    `^[\*"\d\s]*([a-zA-Z][a-zA-Z\s\'\-]+)\s*\[[^\]]+\]\s+([a-zA-Z<uml>][a-zA-Z<uml>\-\/\s]+)$`. -/
def matchInline (line : List Char) : Option (List Char × List Char) :=
  match line.dropWhile junkLead with
  | c :: rest =>
    if isAsciiAlpha c then
      let run := rest.takeWhile classC3
      if run.isEmpty then none
      else
        match inlineAfterRun (rest.drop run.length) with
        | some g2 => some (c :: run, g2)
        | none => none
    else none
  | [] => none

/-- Pronunciation-line test of the pattern-2 lookahead (source line 383):
    `^\[[^\]]*\]` or `^\[\S+\].*\]$` — both need an opening bracket at the
    start and a closing bracket somewhere after it. -/
def isPronLine (l : List Char) : Bool :=
  match l with
  | '[' :: r => r.contains ']'
  | _ => false

/-- Vocabulary-start test of the pattern-2 lookahead (source line 390):
    `^[\*"\d\s\']*[a-zA-Z][a-zA-Z\s\'\-]+\s*\[`. -/
def looksVocabStart (l : List Char) : Bool :=
  match l.dropWhile junkLeadA with
  | c :: rest =>
    isAsciiAlpha c &&
      (let run := rest.takeWhile classC3
       !run.isEmpty && (rest.drop run.length).head? = some '[')
  | [] => false

/-- Matches `(?:\s*\((?:AE|BE|no pl|pl)\))?$` (end of the lookahead word
    pattern). -/
def wmEnd (r : List Char) : Bool :=
  r.isEmpty ||
    (let r1 := r.dropWhile isPySpace
     r1 = "(AE)".toList || r1 = "(BE)".toList || r1 = "(no pl)".toList ||
     r1 = "(pl)".toList)

/-- Non-greedy extension of the lookahead word group. -/
def wmLazyExt (c0 : Char) (midRev rest : List Char) : Option (List Char) :=
  match rest with
  | [] => none
  | c :: rest' =>
    if classP1 c then
      if wmEnd rest' then some (c0 :: (c :: midRev).reverse)
      else wmLazyExt c0 (c :: midRev) rest'
    else none

/-- Word pattern of the pattern-2 branch (source line 396):
    `^[\*"\d\s\']*([a-zA-Z][a-zA-Z\s\'\-\(\)\.\/\+\,\?!]+?)(?:\s*\((?:AE|BE|no pl|pl)\))?$`. -/
def wordMatchP2 (line : List Char) : Option (List Char) :=
  match line.dropWhile junkLeadA with
  | c :: rest => if isAsciiAlpha c then wmLazyExt c [] rest else none
  | [] => none

/-- `re.search(r'\((AE|BE|no pl)\)$', line)` (source line 400), returning
    group 1. -/
def markerSearch (line : List Char) : Option (List Char) :=
  if endsWithL "(AE)".toList line then some "AE".toList
  else if endsWithL "(BE)".toList line then some "BE".toList
  else if endsWithL "(no pl)".toList line then some "no pl".toList
  else none

/-- Source lines 400-402: append ` (<marker>)` to the word when the marker
    pattern matched. -/
def applyMarker (line ew0 : List Char) : List Char :=
  match markerSearch line with
  | some m => ew0 ++ (' ' :: '(' :: (m ++ [')']))
  | none => ew0

/-- Matches `\s*\[[^\]]+\]` followed by anything. -/
def svTail (r : List Char) : Bool :=
  match r.dropWhile isPySpace with
  | '[' :: r1 =>
    let g := r1.takeWhile (fun x => x ≠ ']')
    !g.isEmpty && (r1.drop g.length).head? = some ']'
  | _ => false

/-- Lazy group body for `stopVocabNoEnd`. -/
def svLazy : List Char → Bool
  | [] => false
  | c :: rest' => classP1 c && (svTail rest' || svLazy rest')

/-- Stop test of the pattern-2 translation collector (source line 427):
    `^[\*"\d\s]*[a-zA-Z][a-zA-Z\s\'\-\(\)\.\/\+\,\?!]+?\s*\[[^\]]+\]`. -/
def stopVocabNoEnd (l : List Char) : Bool :=
  match l.dropWhile junkLead with
  | c :: rest => isAsciiAlpha c && svLazy rest
  | [] => false

/-- Matches `\s*\[[^\]]+\]$`. -/
def svTailEnd (r : List Char) : Bool :=
  match r.dropWhile isPySpace with
  | '[' :: r1 =>
    let g := r1.takeWhile (fun x => x ≠ ']')
    !g.isEmpty &&
      match r1.drop g.length with
      | ']' :: r2 => r2.isEmpty
      | _ => false
  | _ => false

/-- Lazy group body for `stopVocabWithEnd`. -/
def svLazyEnd : List Char → Bool
  | [] => false
  | c :: rest' => classP1 c && (svTailEnd rest' || svLazyEnd rest')

/-- Stop test of the main translation collector (source line 559):
    `^[\*"\d\s]*[a-zA-Z][a-zA-Z\s\'\-\(\)\.\/\+\,\?!]+?\s*\[[^\]]+\]$`. -/
def stopVocabWithEnd (l : List Char) : Bool :=
  match l.dropWhile junkLead with
  | c :: rest => isAsciiAlpha c && svLazyEnd rest
  | [] => false

/-- Matches `^\[[^\]]+\]$` (source line 429). -/
def pronOnlyFull (l : List Char) : Bool :=
  match l with
  | '[' :: r =>
    let g := r.takeWhile (fun x => x ≠ ']')
    !g.isEmpty && r.drop g.length = [']']
  | _ => false

/-- The reflexive pronouns of pattern 5. -/
def reflexivePronouns : List (List Char) :=
  ["oneself", "yourself", "himself", "herself", "themselves",
   "ourselves"].map String.toList

/-- Pattern 5 (source line 487, `re.IGNORECASE`):
    `^(to \w+ (oneself|yourself|himself|herself|themselves|ourselves))$`.
    Group 1 is the whole line. -/
def reflexiveMatch (line : List Char) : Bool :=
  match line with
  | c1 :: c2 :: c3 :: rest =>
    lowerCh c1 = 't' && lowerCh c2 = 'o' && c3 = ' ' &&
      (let w := rest.takeWhile isWordCh
       !w.isEmpty &&
         match rest.drop w.length with
         | ' ' :: tail => reflexivePronouns.any (fun p => pyLower tail = p)
         | _ => false)
  | _ => false

/-- Pattern 6 (source line 517): `^[\*"\d\s\']*([a-zA-Z][a-zA-Z\-]+)$`. -/
def simpleWordMatch (line : List Char) : Option (List Char) :=
  match line.dropWhile junkLeadA with
  | c :: rest =>
    if isAsciiAlpha c then
      let run := rest.takeWhile classWordHy
      if !run.isEmpty && (rest.drop run.length).isEmpty then some (c :: run)
      else none
    else none
  | [] => none

/-- Fuel-driven worker for `collapseSemis`; one fuel unit per consumed
    character, so `l.length` fuel always suffices (each step continues on a
    strictly shorter list). -/
def collapseSemisGo : Nat → List Char → List Char
  | _, [] => []
  | 0, l => l
  | fuel + 1, c :: rest =>
    if c = ';' then
      let sp := rest.takeWhile isPySpace
      match rest.drop sp.length with
      | ';' :: rest2 => ';' :: collapseSemisGo fuel rest2
      | _ => ';' :: collapseSemisGo fuel rest
    else c :: collapseSemisGo fuel rest

/-- `re.sub(r';\s*;', ';', s)`: each semicolon-space-semicolon group becomes
    one semicolon; scanning resumes after the replaced text. -/
def collapseSemis (l : List Char) : List Char := collapseSemisGo l.length l

/-- `re.sub(r'\s+', ' ', s)`: whitespace runs become one space. -/
def collapseWs : List Char → List Char
  | [] => []
  | [c] => if isPySpace c then [' '] else [c]
  | c :: d :: rest =>
    if isPySpace c then
      if isPySpace d then collapseWs (d :: rest)
      else ' ' :: collapseWs (d :: rest)
    else c :: collapseWs (d :: rest)

/-- The translation-fragment joining rule (source lines 447-450 and others):
    a previous fragment ending in a hyphen absorbs the new fragment. -/
def addPart : List (List Char) → List Char → List (List Char)
  | [], c => [c]
  | [p], c => if lastCharIs '-' p then [p.dropLast ++ c] else [p, c]
  | p :: ps, c => p :: addPart ps c

/-- `looks_incomplete` (source lines 452-454 and 587-589). -/
def looksIncomplete (cleaned : List Char) : Bool :=
  let lastWord :=
    match (splitWs cleaned).getLast? with
    | some w => pyRStrip (fun c => c = ')') (pyLower w)
    | none => []
  incompleteEndings.contains lastWord && !(lastCharIs ')' cleaned)

/-- The `'; '` separator of `'; '.join(german_parts)`. -/
def semiSep : List Char := "; ".toList

/-- `rstrip(';')`. -/
def rstripSemi (l : List Char) : List Char := pyRStrip (fun c => c = ';') l

/-- `strip('; ')`. -/
def stripSemiSpace (l : List Char) : List Char :=
  pyStripSet (fun c => c = ';' || c = ' ') l

/-- Join rule of patterns 1/2 (source lines 472-476 and 610-614). -/
def joinGermanFull (parts : List (List Char)) : List Char :=
  stripSemiSpace (collapseWs (collapseSemis (List.intercalate semiSep parts)))

/-- Join rule of pattern 5 (source lines 506-507): no semicolon collapsing. -/
def joinGermanP5 (parts : List (List Char)) : List Char :=
  stripSemiSpace (collapseWs (List.intercalate semiSep parts))

/-! ## The segmentation engine (`parse_english_vocabulary`, lines 306-622)

The scanner is a single forward pass.  One loop iteration is `stepLine`; it
returns `none` when the Python code would raise, and otherwise an optional
produced entry together with how many extra lines beyond the current one are
consumed (`i += 2` consumes one extra line).  All `lines[k]` lookaheads are
relative to the remaining suffix `rest`. -/

/-- Result of the pattern-2 branch: not taken, or taken with an optional
    entry (taking always consumes one extra line, source line 481). -/
inductive P2Res where
  | fall : P2Res
  | taken : Option (List Char × List Char) → P2Res
deriving DecidableEq

/-- Pronunciation-line search of pattern 2 (source lines 378-391) over the
    next (at most three) lines; `o` is the 1-based offset of the first line
    examined.  Returns the offset of the pronunciation line. -/
def p2FindPron : List (List Char) → Nat → Option Nat
  | [], _ => none
  | r :: rs, o =>
    let nl := pyStrip r
    if isPronLine nl then some o
    else if should_skip_line nl || nl.isEmpty then p2FindPron rs (o + 1)
    else if looksVocabStart nl then none
    else p2FindPron rs (o + 1)

/-- Translation collection between headword and pronunciation line
    (source lines 406-417). -/
def betweenCollect : List (List Char) → List (List Char) → Option (List (List Char))
  | [], parts => some parts
  | r :: rs, parts =>
    let bl := pyStrip r
    if bl.isEmpty || should_skip_line bl then betweenCollect rs parts
    else if is_english_sentence bl then betweenCollect rs parts
    else
      match is_likely_german bl with
      | none => none
      | some g =>
        if g then
          let cleaned := pyStrip (rstripSemi bl)
          if !cleaned.isEmpty && 1 < cleaned.length then
            betweenCollect rs (parts ++ [cleaned])
          else betweenCollect rs parts
        else betweenCollect rs parts

/-- Translation collection after the pronunciation line (source lines
    420-470). -/
def p2AfterCollect : List (List Char) → List (List Char) → Option (List (List Char))
  | [], parts => some parts
  | r :: rs, parts =>
    let tl := pyStrip r
    if stopVocabNoEnd tl then some parts
    else if pronOnlyFull tl then some parts
    else if tl.isEmpty then p2AfterCollect rs parts
    else if should_skip_line tl then p2AfterCollect rs parts
    else if is_english_sentence tl then p2AfterCollect rs parts
    else
      match is_likely_german tl with
      | none => none
      | some g =>
        if g then
          let cleaned := pyStrip (rstripSemi tl)
          if !cleaned.isEmpty && 1 < cleaned.length then
            let parts' := addPart parts cleaned
            if !lastCharIs '-' cleaned && !looksIncomplete cleaned then some parts'
            else p2AfterCollect rs parts'
          else p2AfterCollect rs parts
        else
          match is_continuation tl with
          | none => none
          | some cont =>
            if cont then
              let cleaned := pyStrip (rstripSemi tl)
              if !cleaned.isEmpty && 1 < cleaned.length then
                let parts' := addPart parts cleaned
                if lastCharIs ')' cleaned || (2 ≤ parts'.length && !lastCharIs '-' cleaned) then
                  some parts'
                else p2AfterCollect rs parts'
              else p2AfterCollect rs parts
            else p2AfterCollect rs parts

/-- Translation collection of the main (pattern 1/alternates/pattern 4)
    branch (source lines 550-607). -/
def mainCollect : List (List Char) → List (List Char) → Option (List (List Char))
  | [], parts => some parts
  | r :: rs, parts =>
    let tl := pyStrip r
    if stopVocabWithEnd tl then some parts
    else if tl.isEmpty then mainCollect rs parts
    else if should_skip_line tl then mainCollect rs parts
    else if is_english_sentence tl then mainCollect rs parts
    else
      match is_likely_german tl with
      | none => none
      | some g =>
        if g then
          let cleaned := pyStrip (rstripSemi tl)
          if !cleaned.isEmpty && 1 < cleaned.length then
            let parts' := addPart parts cleaned
            if !lastCharIs '-' cleaned && !looksIncomplete cleaned then some parts'
            else mainCollect rs parts'
          else mainCollect rs parts
        else
          match is_continuation tl with
          | none => none
          | some cont =>
            if cont then
              let cleaned := pyStrip (rstripSemi tl)
              if !cleaned.isEmpty && 1 < cleaned.length then
                let parts' := addPart parts cleaned
                if lastCharIs ')' cleaned || (2 ≤ parts'.length && !lastCharIs '-' cleaned) then
                  some parts'
                else mainCollect rs parts'
              else mainCollect rs parts
            else mainCollect rs parts

/-- Translation collection of pattern 5 (source lines 491-504): no
    example-sentence skip, no stop patterns, no hyphen merging. -/
def p5Collect : List (List Char) → List (List Char) → Option (List (List Char))
  | [], parts => some parts
  | r :: rs, parts =>
    let nl := pyStrip r
    if nl.isEmpty || should_skip_line nl then p5Collect rs parts
    else
      match is_likely_german nl with
      | none => none
      | some g =>
        match (if g then some true else is_continuation nl) with
        | none => none
        | some c =>
          if c then
            let cleaned := pyStrip (rstripSemi nl)
            if !cleaned.isEmpty && 1 < cleaned.length then
              let parts' := parts ++ [cleaned]
              if !lastCharIs '-' cleaned then some parts'
              else p5Collect rs parts'
            else p5Collect rs parts
          else p5Collect rs parts

/-- Pattern 7 attempt (source lines 340-352).  `some (some e)`: an entry is
    produced and one line is consumed; `some none`: fall through. -/
def step_p7 (line : List Char) (rest : List (List Char)) :
    Option (Option (List Char × List Char)) :=
  match p7FindFirst line with
  | none => some none
  | some w0 =>
    let firstWord := pyStrip w0
    if 3 ≤ firstWord.length then
      match rest with
      | [] => some none
      | r0 :: _ =>
        let nl := pyStrip r0
        match is_likely_german nl with
        | none => none
        | some g =>
          if g && !should_skip_line nl then some (some (firstWord, nl))
          else some none
    else some none

/-- Pattern 3 attempt (source lines 356-365); pure. -/
def step_p3 (line : List Char) : Option (List Char × List Char) :=
  match matchInline line with
  | some (g1, g2) =>
    let englishWord := pyLStrip junkStripSet (pyStrip g1)
    let inlineGerman := pyStrip g2
    if !englishWord.isEmpty && !inlineGerman.isEmpty && 2 ≤ englishWord.length then
      some (englishWord, inlineGerman)
    else none
  | none => none

/-- Pattern 2 attempt (source lines 373-482). -/
def step_p2 (line : List Char) (rest : List (List Char)) : Option P2Res :=
  match rest with
  | [] => some P2Res.fall
  | _ :: _ =>
    match p2FindPron (rest.take 3) 1 with
    | none => some P2Res.fall
    | some o =>
      match wordMatchP2 line with
      | none => some P2Res.fall
      | some g1 =>
        let ew := applyMarker line (pyLStrip junkStripSetA (pyStrip g1))
        if 2 ≤ ew.length && ew.length < 45 then
          match betweenCollect (rest.take (o - 1)) [] with
          | none => none
          | some between =>
            match p2AfterCollect ((rest.drop o).take 11) between with
            | none => none
            | some parts =>
              if parts.isEmpty then some (P2Res.taken none)
              else
                let german := joinGermanFull parts
                if !ew.isEmpty && !german.isEmpty && 1 < german.length then
                  some (P2Res.taken (some (ew, german)))
                else some (P2Res.taken none)
        else some P2Res.fall

/-- Pattern 5 attempt (source lines 486-510). -/
def step_p5 (line : List Char) (rest : List (List Char)) :
    Option (Option (List Char × List Char)) :=
  if reflexiveMatch line then
    let englishWord := pyStrip line
    match p5Collect (rest.take 4) [] with
    | none => none
    | some parts =>
      if parts.isEmpty then some none
      else some (some (englishWord, joinGermanP5 parts))
  else some none

/-- Pattern 6 attempt (source lines 516-541); pure. -/
def step_p6 (line : List Char) (rest : List (List Char)) :
    Option (List Char × List Char) :=
  match simpleWordMatch line with
  | none => none
  | some w =>
    let englishWord := pyStrip w
    if 4 ≤ englishWord.length && englishWord.length < 25 then
      let hasNearbyPron := (rest.take 4).any (fun r => (pyStrip r).head? = some '[')
      if !hasNearbyPron && !rest.isEmpty then
        match rest with
        | [] => none
        | r0 :: _ =>
          let nl := pyStrip r0
          let headLower :=
            match nl with
            | [] => false
            | c :: _ => isLowerCh c
          let isGermanLike :=
            germanIndicators.any (fun c => nl.contains c) ||
            (headLower && (nl.contains ';' || nl.contains '/') && nl.length < 30)
          if isGermanLike && nl.length < 40 && 2 < nl.length then
            if !is_english_sentence nl && !should_skip_line nl then
              some (englishWord, nl)
            else none
          else none
      else none
    else none

/-- The main (pattern 1/alternates/pattern 4) entry construction
    (source lines 543-620). -/
def bigBranch (g1 : List Char) (rest : List (List Char)) :
    Option (Option (List Char × List Char) × Nat) :=
  let englishWord := pyLStrip junkStripSet (pyStrip g1)
  if englishWord.length < 2 then some (none, 0)
  else
    match mainCollect (rest.take 9) [] with
    | none => none
    | some parts =>
      if parts.isEmpty then some (none, 0)
      else
        let german := joinGermanFull parts
        if !englishWord.isEmpty && !german.isEmpty && 1 < german.length then
          some (some (englishWord, german), 0)
        else some (none, 0)

/-- One iteration of the scanning loop at the (already stripped) current
    line; `rest` is the tail of the line stream. -/
def stepLine (line : List Char) (rest : List (List Char)) :
    Option (Option (List Char × List Char) × Nat) :=
  if line.isEmpty then some (none, 0)
  else if matchesSkipPatterns line then some (none, 0)
  else
    match matchPat1 line with
    | some (g1, _) => bigBranch g1 rest
    | none =>
      match matchPatA2 line with
      | some g1 => bigBranch g1 rest
      | none =>
        match matchPatA3 line with
        | some g1 => bigBranch g1 rest
        | none =>
          -- pattern 7
          match step_p7 line rest with
          | none => none
          | some (some e) => some (some e, 0)
          | some none =>
            -- pattern 3
            match step_p3 line with
            | some e => some (some e, 0)
            | none =>
              -- pattern 4
              match matchPat4 line with
              | some g1 => bigBranch g1 rest
              | none =>
                -- pattern 2
                match step_p2 line rest with
                | none => none
                | some (P2Res.taken e) => some (e, 1)
                | some P2Res.fall =>
                  -- pattern 5
                  match step_p5 line rest with
                  | none => none
                  | some (some e) => some (some e, 0)
                  | some none =>
                    -- pattern 6
                    match step_p6 line rest with
                    | some e => some (some e, 0)
                    | none => some (none, 0)

/-- Fuel-driven worker for the scanning loop; every iteration consumes at
    least the current line and exactly one fuel unit, so `lines.length` fuel
    always suffices (the fuel-exhaustion branch is unreachable and made loud
    by returning `none`). -/
def scanGo : Nat → List (List Char) → Option (List (List Char × List Char))
  | _, [] => some []
  | 0, _ :: _ => none
  | fuel + 1, raw :: rest =>
    match stepLine (pyStrip raw) rest with
    | none => none
    | some (e?, extra) =>
      match scanGo fuel (rest.drop extra) with
      | none => none
      | some tail =>
        match e? with
        | some e => some (e :: tail)
        | none => some tail

/-- The scanning loop (source lines 306-622). -/
def scanLines (lines : List (List Char)) :
    Option (List (List Char × List Char)) :=
  scanGo lines.length lines

/-! ## Entry filtering (`looks_like_german` / `is_bad_entry`, lines 624-674) -/

/-- `german_words` of `looks_like_german` (source line 627). -/
def germanWordsLLG : List (List Char) :=
  ["sein", "haben", "nicht", "und", "oder", "mit", "sich"].map String.toList

/-- `looks_like_german` (source lines 625-633). -/
def looks_like_german (text : List Char) : Bool :=
  let textLower := pyLower text
  germanIndicators.any (fun c => text.contains c) ||
    germanWordsLLG.any (fun w => (splitWs textLower).contains w)

/-- `german_compounds` (source line 642). -/
def germanCompounds : List (List Char) :=
  ["familie", "schule", "haus", "zeit", "wort", "tag", "buch"].map String.toList

/-- `loanwords` (source lines 647-650). -/
def loanwords : List (List Char) :=
  ["digital", "cover", "image", "college", "trainer", "content",
   "communication", "blond", "argument", "international", "normal", "social",
   "personal", "original", "formal", "central", "natural", "total", "final",
   "global", "local", "legal", "vital", "mental", "dental", "fatal", "brutal",
   "neutral", "tribal"].map String.toList

/-- Subjects of the sentence-leak test (source line 657). -/
def pnSubjects : List (List Char) :=
  ["Nobody", "Jack", "I", "We", "They", "He", "She"].map String.toList

/-- Verbs of the sentence-leak test (source line 657). -/
def pnVerbs : List (List Char) :=
  ["was", "were", "am", "is", "are"].map String.toList

/-- One attempt of `\b(Nobody|Jack|I|We|They|He|She)\s+(was|were|am|is|are)\b`
    at the head of `l` (the leading word boundary is checked by the caller). -/
def pnTryAt (l : List Char) : Bool :=
  pnSubjects.any (fun s =>
    startsWithL s l &&
      (let r := l.drop s.length
       let sp := r.takeWhile isPySpace
       !sp.isEmpty &&
         (let r2 := r.drop sp.length
          pnVerbs.any (fun v =>
            startsWithL v r2 &&
              match r2.drop v.length with
              | [] => true
              | d :: _ => !isWordCh d))))

/-- Helper scan for `pnSearch`; `boundary` says whether a word boundary
    precedes the current position. -/
def pnSearchAux : Bool → List Char → Bool
  | _, [] => false
  | boundary, c :: t =>
    (boundary && pnTryAt (c :: t)) || pnSearchAux (!isWordCh c) t

/-- `re.search` of the sentence-leak pattern (source line 657). -/
def pnSearch (l : List Char) : Bool := pnSearchAux true l

/-- One attempt of `[A-Z][a-z]+\s+[a-z]+\s+[a-z]+\.?$` at the head of `l`. -/
def tailTryAt (l : List Char) : Bool :=
  match l with
  | c :: r =>
    isAsciiUpperCh c &&
      (let w1 := r.takeWhile isAsciiLowerCh
       !w1.isEmpty &&
         (let r1 := r.drop w1.length
          let sp1 := r1.takeWhile isPySpace
          !sp1.isEmpty &&
            (let r2 := r1.drop sp1.length
             let w2 := r2.takeWhile isAsciiLowerCh
             !w2.isEmpty &&
               (let r3 := r2.drop w2.length
                let sp2 := r3.takeWhile isPySpace
                !sp2.isEmpty &&
                  (let r4 := r3.drop sp2.length
                   let w3 := r4.takeWhile isAsciiLowerCh
                   !w3.isEmpty &&
                     (let r5 := r4.drop w3.length
                      r5.isEmpty || r5 = ['.']))))))
  | [] => false

/-- `re.search(r'[A-Z][a-z]+\s+[a-z]+\s+[a-z]+\.?$', ger)` (source line 664). -/
def tailSearch : List Char → Bool
  | [] => false
  | c :: t => tailTryAt (c :: t) || tailSearch t

/-- The stored code points of the literal compared by `'gew..hnt' in ger`
    (source line 667). -/
def gewoehnt : List Char := 'g' :: 'e' :: 'w' :: cjoe :: "hnt".toList

/-- `is_bad_entry` (source lines 635-672).  `none` models the uncaught
    `IndexError` of `eng[0]` (line 654) on an empty headword. -/
def is_bad_entry (eng ger : List Char) : Option Bool :=
  if looks_like_german eng then some true
  else if 8 < eng.length &&
          (match eng with | c :: _ => isUpperCh c | [] => false) &&
          pyIsAlpha eng && !eng.contains ' ' &&
          germanCompounds.any (fun p => containsSub p (pyLower eng)) then
    some true
  else if pyStrip (pyLower eng) = pyStrip (pyLower ger) &&
          !loanwords.contains (pyLower eng) then
    some true
  else
    match eng with
    | [] => none
    | c :: _ =>
      if isUpperCh c && eng.contains '.' && 30 < eng.length then some true
      else if pnSearch ger then some true
      else if startsWithL "to ".toList ger && containsSub " - ".toList ger &&
              countCh '-' ger = 1 then some true
      else if tailSearch ger && 30 < ger.length then some true
      else if pyLower eng = "so".toList && containsSub gewoehnt ger then some true
      else if eng.contains '/' &&
              (containsSub "books".toList (pyLower ger) ||
               containsSub "comics".toList (pyLower ger)) then some true
      else some false

/-- The filtering list comprehension (source line 674); a raised exception in
    `is_bad_entry` aborts the whole comprehension. -/
def filterBadEntries : List (List Char × List Char) →
    Option (List (List Char × List Char))
  | [] => some []
  | (e, g) :: rest =>
    match is_bad_entry e g with
    | none => none
    | some bad =>
      match filterBadEntries rest with
      | none => none
      | some r => if bad then some r else some ((e, g) :: r)

/-- The deduplication pass (source lines 677-683); `seen` holds the
    case-folded stripped headwords already kept. -/
def dedupGo (seen : List (List Char)) :
    List (List Char × List Char) → List (List Char × List Char)
  | [] => []
  | e :: rest =>
    let k := pyStrip (pyLower e.1)
    if seen.contains k then dedupGo seen rest
    else e :: dedupGo (k :: seen) rest

/-- The scan-then-filter part of `parse_english_vocabulary` (everything
    before the deduplication pass, source lines 306-674). -/
def pre_dedup_vocabulary (lines : List (List Char)) :
    Option (List (List Char × List Char)) :=
  match scanLines lines with
  | none => none
  | some vocabulary => filterBadEntries vocabulary

/-- `parse_english_vocabulary` (source lines 149-685). -/
def parse_english_vocabulary (lines : List (List Char)) :
    Option (List (List Char × List Char)) :=
  match pre_dedup_vocabulary lines with
  | none => none
  | some filtered => some (dedupGo [] filtered)

/-! ## `create_anki_file` (source lines 834-906)

The output file is modelled as the list of physical lines written (each
`f.write(s + "\n")` contributes one line; fields are expected not to contain
newline characters, which the round-trip theorem assumes explicitly). -/

/-- `sentence_starters` of the aggressive filter (source lines 886-887). -/
def cafSentenceStarters : List (List Char) :=
  ["Ich ", "Wir ", "Du ", "Er ", "Sie ", "Es ", "Da ist", "Auf geht",
   "Hast ", "Wartest ", "Was ", "Wie ", "Wann ", "Wo "].map String.toList

/-- `sentence_indicators` of the aggressive filter (source lines 891-896). -/
def cafSentenceIndicators : List (List Char) :=
  ["haben wir", "gibt kein", "gibt es", "ist dunkel", "man sieht",
   "soir,", "Souvent", "Gestern", "Internet", "schreit", "nicht allein",
   "Vampir", "Das Gitter", "gehen wir", "interessant ist",
   "Recht hast", "gegen moi", "contre moi"].map String.toList ++
  [wap "qu" "est", wap "Qu" "est"]

/-- The aggressive (non-English) skip conditions (source lines 869-901). -/
def aggressiveSkip (front back : List Char) : Bool :=
  lastCharIs '-' back || endsWithL " eine".toList back ||
    endsWithL " ein".toList back || endsWithL " im".toList back ||
  containsSub "(inv.)".toList back || containsSub "invariable".toList back ||
    containsSub "bedeutet".toList back ||
  (["ein ", "eine ", "der ", "die ", "das "].map String.toList).any
    (fun s => startsWithL s front) ||
  50 < back.length ||
  back.contains '?' ||
  cafSentenceStarters.any (fun s => startsWithL s back) ||
  cafSentenceIndicators.any (fun ind => containsSub (pyLower ind) (pyLower back)) ||
  (["ang", "der", "die", "das", "ein", "eine"].map String.toList).contains back

/-- The Anki header block (source lines 841-844). -/
def ankiHeader (deckName notetype : List Char) : List (List Char) :=
  ["#separator:Tab".toList, "#html:false".toList,
   "#deck:".toList ++ deckName, "#notetype:".toList ++ notetype]

/-- Body loop of `create_anki_file` (source lines 847-904): returns the body
    lines and the `written` counter. -/
def createBody (curated : Bool) (seen : List (List Char × List Char)) :
    List (List Char × List Char) → List (List Char) × Nat
  | [] => ([], 0)
  | (f0, b0) :: rest =>
    let front := pyStrip f0
    let back := pyStrip b0
    let key := (pyLower front, pyLower back)
    if seen.contains key then createBody curated seen rest
    else
      let seen' := key :: seen
      if front.isEmpty || back.isEmpty || front.length < 2 || back.length < 2 then
        createBody curated seen' rest
      else if curated then
        let (ls, n) := createBody curated seen' rest
        ((front ++ '\t' :: back) :: ls, n + 1)
      else if aggressiveSkip front back then createBody curated seen' rest
      else
        let (ls, n) := createBody curated seen' rest
        ((front ++ '\t' :: back) :: ls, n + 1)

/-- `create_anki_file` (source lines 834-906): the written file lines and the
    return value `written`. -/
def create_anki_file (vocabulary : List (List Char × List Char))
    (deckName notetype language : List Char) : List (List Char) × Nat :=
  let isCuratedEnglish := language = "english".toList
  let (body, written) := createBody isCuratedEnglish [] vocabulary
  (ankiHeader deckName notetype ++ body, written)

/-! ## `validate_vocabulary.py` -/

/-- `load_anki_file` (source `scripts/validate_vocabulary.py`, lines
    157-171). -/
def load_anki_file : List (List Char) → List (List Char × List Char)
  | [] => []
  | l :: rest =>
    let s := pyStrip l
    if s.isEmpty || s.head? = some '#' then load_anki_file rest
    else
      match splitOnCh '\t' s with
      | p0 :: p1 :: _ => (p0, p1) :: load_anki_file rest
      | _ => load_anki_file rest

/-! ### `difflib.SequenceMatcher` (CPython), as used by `similarity_score` -/

/-- Positions of `c` in `b`, in increasing order (`b2j` entry). -/
def posIndices (b : List Char) (c : Char) : List Nat :=
  (List.range b.length).filter (fun j => b.getD j ' ' = c)

/-- The `autojunk` popularity test: active only for `len(b) >= 200`. -/
def isbjunkB (b : List Char) (c : Char) : Bool :=
  200 ≤ b.length && b.length / 100 + 1 < countCh c b

/-- `b2j` lookup with junk removed. -/
def b2jGet (b : List Char) (c : Char) : List Nat :=
  if isbjunkB b c then [] else posIndices b c

/-- Lookup in the `j2len` mapping with default 0. -/
def assocGet (m : List (Nat × Nat)) (j : Nat) : Nat :=
  match m.lookup j with
  | some v => v
  | none => 0

/-- Inner loop of `find_longest_match` over the `b` positions of `a[i]`. -/
def flmRowJ (j2len : List (Nat × Nat)) (i : Nat) :
    List Nat → List (Nat × Nat) → Nat × Nat × Nat →
    List (Nat × Nat) × (Nat × Nat × Nat)
  | [], newj2len, best => (newj2len, best)
  | j :: js, newj2len, best =>
    let k := (if j = 0 then 0 else assocGet j2len (j - 1)) + 1
    let best' := if best.2.2 < k then (i + 1 - k, j + 1 - k, k) else best
    flmRowJ j2len i js ((j, k) :: newj2len) best'

/-- Outer loop of `find_longest_match` over `i` in `[alo, ahi)`. -/
def flmRows (a b : List Char) (blo bhi : Nat) :
    List Nat → List (Nat × Nat) → Nat × Nat × Nat → Nat × Nat × Nat
  | [], _, best => best
  | i :: idxs, j2len, best =>
    let js := (b2jGet b (a.getD i ' ')).filter (fun j => blo ≤ j && j < bhi)
    let (newj2len, best') := flmRowJ j2len i js [] best
    flmRows a b blo bhi idxs newj2len best'

/-- The two lower-extension `while` loops of `find_longest_match` (the
    non-junk and the junk variant, selected by `junkVal`). -/
def extendLow (a b : List Char) (alo blo : Nat) (junkVal : Bool) :
    Nat → Nat × Nat × Nat → Nat × Nat × Nat
  | 0, st => st
  | fuel + 1, (besti, bestj, bestsize) =>
    if alo < besti && blo < bestj &&
       isbjunkB b (b.getD (bestj - 1) ' ') = junkVal &&
       a.getD (besti - 1) ' ' = b.getD (bestj - 1) ' ' then
      extendLow a b alo blo junkVal fuel (besti - 1, bestj - 1, bestsize + 1)
    else (besti, bestj, bestsize)

/-- The two upper-extension `while` loops of `find_longest_match`. -/
def extendHigh (a b : List Char) (ahi bhi : Nat) (junkVal : Bool) :
    Nat → Nat × Nat × Nat → Nat × Nat × Nat
  | 0, st => st
  | fuel + 1, (besti, bestj, bestsize) =>
    if besti + bestsize < ahi && bestj + bestsize < bhi &&
       isbjunkB b (b.getD (bestj + bestsize) ' ') = junkVal &&
       a.getD (besti + bestsize) ' ' = b.getD (bestj + bestsize) ' ' then
      extendHigh a b ahi bhi junkVal fuel (besti, bestj, bestsize + 1)
    else (besti, bestj, bestsize)

/-- `SequenceMatcher.find_longest_match` on the window
    `a[alo:ahi]`, `b[blo:bhi]`. -/
def find_longest_match (a b : List Char) (alo ahi blo bhi : Nat) :
    Nat × Nat × Nat :=
  let fuel := a.length + b.length
  let best1 := flmRows a b blo bhi (List.range' alo (ahi - alo)) [] (alo, blo, 0)
  let best2 := extendLow a b alo blo false fuel best1
  let best3 := extendHigh a b ahi bhi false fuel best2
  let best4 := extendLow a b alo blo true fuel best3
  extendHigh a b ahi bhi true fuel best4

/-- Total size of the matching blocks of `get_matching_blocks` (the only
    quantity `ratio` needs); the regions of the work queue are processed
    recursively. -/
def smMatchedTotal (a b : List Char) :
    Nat → Nat → Nat → Nat → Nat → Nat
  | 0, _, _, _, _ => 0
  | fuel + 1, alo, ahi, blo, bhi =>
    let m := find_longest_match a b alo ahi blo bhi
    let i := m.1; let j := m.2.1; let k := m.2.2
    if k = 0 then 0
    else
      k + smMatchedTotal a b fuel alo i blo j +
        smMatchedTotal a b fuel (i + k) ahi (j + k) bhi

/-- `SequenceMatcher(None, a, b).ratio()` (floating point modelled by `ℚ`). -/
def smRatio (a b : List Char) : ℚ :=
  let total := a.length + b.length
  if total = 0 then 1
  else 2 * (smMatchedTotal a b (total + 1) 0 a.length 0 b.length : ℚ) / (total : ℚ)

/-- `articles` of `similarity_score` (source line 124). -/
def vsArticles : List (List Char) :=
  ["der ", "die ", "das ", "ein ", "eine ", "etw. ", "jdn. ",
   "jdm. "].map String.toList

/-- The sequential leading-article stripping of `similarity_score`
    (source lines 125-129). -/
def stripLeadingArticles (t : List Char) : List Char :=
  vsArticles.foldl (fun acc art => if startsWithL art acc then acc.drop art.length else acc) t

/-- `similarity_score` (source lines 114-132); floats modelled by `ℚ`. -/
def similarity_score (text1 text2 : List Char) : ℚ :=
  if text1.isEmpty || text2.isEmpty then 0
  else
    let t1 := stripLeadingArticles (pyStrip (pyLower text1))
    let t2 := stripLeadingArticles (pyStrip (pyLower text2))
    smRatio t1 t2

/-- `stop_words` of `word_overlap_score` (source line 144). -/
def stopWords : List (List Char) :=
  ["der", "die", "das", "ein", "eine", "und", "oder", "zu", "sich",
   "etw.", "jdn.", "jdm."].map String.toList

/-- `word_overlap_score` (source lines 135-154); sets are modelled by
    deduplicated lists (only membership and cardinality are used). -/
def word_overlap_score (text1 text2 : List Char) : ℚ :=
  if text1.isEmpty || text2.isEmpty then 0
  else
    let words1 := ((splitWs (pyLower text1)).dedup).filter (fun w => !stopWords.contains w)
    let words2 := ((splitWs (pyLower text2)).dedup).filter (fun w => !stopWords.contains w)
    if words1.isEmpty || words2.isEmpty then 0
    else
      let inter := words1.filter (fun w => words2.contains w)
      let union := (words1 ++ words2).dedup
      if union.length = 0 then 0
      else (inter.length : ℚ) / (union.length : ℚ)

/-- The reason attached to a validation record.  The source stores formatted
    strings ("Entry too short", "Low similarity (...)" with the score to two
    decimals, "Translation API error"); the tag and the exact score are kept
    here, the decimal formatting is not re-modelled. -/
inductive VReason where
  | entryTooShort : VReason
  | lowSimilarity : ℚ → VReason
  | translationApiError : VReason
deriving DecidableEq

/-- One result record of `validate_vocabulary`.  Error records of the source
    carry only `foreign`, `ocr` and `reason`; the remaining fields are `none`
    or `0` here, mirroring the keys the source dictionaries hold. -/
structure VRecord where
  foreign : List Char
  ocr : List Char
  translator : Option (List Char)
  similarity : ℚ
  seqSimilarity : Option ℚ
  wordOverlap : Option ℚ
  inRawText : Option Bool
  reason : Option VReason
deriving DecidableEq

/-- The classification of one entry in `validate_vocabulary`. -/
inductive VOutcome where
  | toValid : VRecord → VOutcome
  | toSuspicious : VRecord → VOutcome
  | toError : VRecord → VOutcome
deriving DecidableEq

/-- The per-entry body of the `validate_vocabulary` loop (source lines
    198-251).  The translation collaborator (`translate_text` with its
    network call) is passed in as a function, `none` being a failed call;
    the fixed inter-call delay has no observable effect here. -/
def validate_entry (translate : List Char → Option (List Char))
    (threshold : ℚ) (rawText : List Char) (foreign ocr : List Char) : VOutcome :=
  if foreign.length < 2 || ocr.length < 2 then
    VOutcome.toSuspicious ⟨foreign, ocr, none, 0, none, none, none, some VReason.entryTooShort⟩
  else
    match translate foreign with
    | none =>
      VOutcome.toError ⟨foreign, ocr, none, 0, none, none, none, some VReason.translationApiError⟩
    | some tr =>
      let seqSim := similarity_score ocr tr
      let wordSim := word_overlap_score ocr tr
      let combined := 0.6 * seqSim + 0.4 * wordSim
      let inRaw := if !rawText.isEmpty then containsSub (pyLower ocr) (pyLower rawText) else true
      if threshold ≤ combined then
        VOutcome.toValid ⟨foreign, ocr, some tr, combined, some seqSim, some wordSim, some inRaw, none⟩
      else
        VOutcome.toSuspicious
          ⟨foreign, ocr, some tr, combined, some seqSim, some wordSim, some inRaw,
           some (VReason.lowSimilarity combined)⟩

/-- The three result lists of `validate_vocabulary` (source lines 189-193). -/
structure VResults where
  valid : List VRecord
  suspicious : List VRecord
  errors : List VRecord
deriving DecidableEq

/-- `validate_vocabulary` (source lines 183-254), over the per-entry body. -/
def validate_vocabulary (translate : List Char → Option (List Char))
    (entries : List (List Char × List Char)) (threshold : ℚ)
    (rawText : List Char) : VResults :=
  entries.foldl
    (fun acc p =>
      match validate_entry translate threshold rawText p.1 p.2 with
      | VOutcome.toValid r => ⟨acc.valid ++ [r], acc.suspicious, acc.errors⟩
      | VOutcome.toSuspicious r => ⟨acc.valid, acc.suspicious ++ [r], acc.errors⟩
      | VOutcome.toError r => ⟨acc.valid, acc.suspicious, acc.errors ++ [r]⟩)
    ⟨[], [], []⟩

/-- The `--threshold` default of `main` (source line 364). -/
def default_threshold : ℚ := 0.3

/-! ### `create_enriched_anki_file` (source lines 304-350) -/

/-- Lookup in the `{(foreign, ocr): e}` dictionaries: a Python dict
    comprehension keeps the last record for a repeated key. -/
def findPairLast (l : List VRecord) (f t : List Char) : Option VRecord :=
  l.reverse.find? (fun e => e.foreign = f && e.ocr = t)

/-- The appended alternative text ` [Azure: <translation>]`. -/
def azureSuffix (az : List Char) : List Char :=
  " [Azure: ".toList ++ az ++ "]".toList

/-- The header block of the enriched file (source lines 316-319). -/
def enrichedHeader (deckName : List Char) : List (List Char) :=
  ["#separator:Tab".toList, "#html:true".toList,
   "#deck:".toList ++ deckName,
   "#notetype:Einfach (beide Richtungen)".toList]

/-- Body loop of `create_enriched_anki_file` (source lines 324-348):
    body lines, `count`, `enriched_count`. -/
def enrichedBody (results : VResults) :
    List (List Char × List Char) → List (List Char) × Nat × Nat
  | [] => ([], 0, 0)
  | (f, t) :: rest =>
    let (ls, cnt, ecnt) := enrichedBody results rest
    if (findPairLast results.valid f t).isSome then
      ((f ++ '\t' :: t) :: ls, cnt + 1, ecnt)
    else
      match findPairLast results.suspicious f t with
      | some e =>
        match e.translator with
        | some az =>
          if !az.isEmpty && pyStrip (pyLower az) ≠ pyStrip (pyLower t) then
            ((f ++ '\t' :: (t ++ azureSuffix az)) :: ls, cnt + 1, ecnt + 1)
          else ((f ++ '\t' :: t) :: ls, cnt + 1, ecnt)
        | none => ((f ++ '\t' :: t) :: ls, cnt + 1, ecnt)
      | none => ((f ++ '\t' :: t) :: ls, cnt + 1, ecnt)

/-- `create_enriched_anki_file` (source lines 304-350): the written file
    lines, `count` and `enriched_count`. -/
def create_enriched_anki_file (originalEntries : List (List Char × List Char))
    (results : VResults) (deckName : List Char) :
    List (List Char) × Nat × Nat :=
  let (body, cnt, ecnt) := enrichedBody results originalEntries
  (enrichedHeader deckName ++ body, cnt, ecnt)

/-! ## The overwrite guard of `main` (source lines 977-984 of
`scripts/create_anki_from_images.py`) -/

/-- What the guard does before any output is produced. -/
inductive OverwriteOutcome where
  | exitEarly : Nat → OverwriteOutcome
  | proceed : OverwriteOutcome
deriving DecidableEq

/-- `if not args.force and not args.reset: if output_file.exists():
    print(...); sys.exit(0)` — the program either exits with the given code
    before writing anything, or proceeds to the extraction and file-creation
    steps. -/
def overwrite_guard (force reset outputExists : Bool) : OverwriteOutcome :=
  if !force && !reset then
    if outputExists then OverwriteOutcome.exitEarly 0
    else OverwriteOutcome.proceed
  else OverwriteOutcome.proceed

/-! ## Specification-side definitions used to state the claims -/

/-- A string is stripped: neither end carries Python whitespace. -/
def IsStrippedP (l : List Char) : Prop :=
  (∀ c ∈ l.head?, isPySpace c = false) ∧ (∀ c ∈ l.getLast?, isPySpace c = false)

/-- The invariant every produced entry satisfies: the headword is a stripped
    string of length at least two. -/
def HeadOK (e : List Char × List Char) : Prop :=
  IsStrippedP e.1 ∧ 2 ≤ e.1.length

/-- Keep the first occurrence of every key, in order (the spec wording of
    the deduplication pass). -/
def keepFirstGo (key : List Char × List Char → List Char)
    (seen : List (List Char)) :
    List (List Char × List Char) → List (List Char × List Char)
  | [] => []
  | e :: rest =>
    if seen.contains (key e) then keepFirstGo key seen rest
    else e :: keepFirstGo key (key e :: seen) rest

/-- `keepFirst key l` keeps, for every key value, only its first occurrence
    in `l`. -/
def keepFirst (key : List Char × List Char → List Char)
    (l : List (List Char × List Char)) : List (List Char × List Char) :=
  keepFirstGo key [] l

/-- The per-entry conditions under which the Anki export round-trips:
    stripped fields of length at least two, no tab or newline inside a
    field, and a headword not starting with the header marker. -/
def GoodEntry (e : List Char × List Char) : Prop :=
  pyStrip e.1 = e.1 ∧ pyStrip e.2 = e.2 ∧
  2 ≤ e.1.length ∧ 2 ≤ e.2.length ∧
  Char.ofNat 9 ∉ e.1 ∧ Char.ofNat 9 ∉ e.2 ∧
  Char.ofNat 10 ∉ e.1 ∧ Char.ofNat 10 ∉ e.2 ∧
  e.1.head? ≠ some (Char.ofNat 35)

instance decidableGoodEntry (e : List Char × List Char) :
    Decidable (GoodEntry e) := by
  unfold GoodEntry
  exact inferInstance

/-- The per-entry body line of the enriched file as the claim words it:
    enrich when the entry is found in the suspicious set with a non-null
    translator result that differs case-insensitively from the original
    translation. -/
def enriched_line_claimed (results : VResults) (e : List Char × List Char) :
    List Char :=
  match findPairLast results.suspicious e.1 e.2 with
  | some r =>
    match r.translator with
    | some az =>
      if pyLower az ≠ pyLower e.2 then e.1 ++ '\t' :: (e.2 ++ azureSuffix az)
      else e.1 ++ '\t' :: e.2
    | none => e.1 ++ '\t' :: e.2
  | none => e.1 ++ '\t' :: e.2

/-- The per-entry body line of the enriched file as the code computes it:
    valid entries take precedence and are unchanged; a suspicious entry is
    enriched only when its translator result is non-empty and differs from
    the original translation after case-folding and stripping. -/
def enriched_line_amended (results : VResults) (e : List Char × List Char) :
    List Char :=
  if (findPairLast results.valid e.1 e.2).isSome then e.1 ++ '\t' :: e.2
  else
    match findPairLast results.suspicious e.1 e.2 with
    | some r =>
      match r.translator with
      | some az =>
        if !az.isEmpty && pyStrip (pyLower az) ≠ pyStrip (pyLower e.2) then
          e.1 ++ '\t' :: (e.2 ++ azureSuffix az)
        else e.1 ++ '\t' :: e.2
      | none => e.1 ++ '\t' :: e.2
    | none => e.1 ++ '\t' :: e.2

/-! # Theorems for the claims -/

/-- C1: for the two-line input `["misunderstood", "missverstanden"]` the
    English parser returns NO entry, although the claim (and the code's own
    pattern-6 example comment, source lines 513-514) promise the entry
    `("misunderstood", "missverstanden")`: the pattern-6 stricter check
    (source lines 531-535) requires the next line to contain a German special
    character or a semicolon or a slash, and `missverstanden` has none. -/
theorem c1_misunderstood_yields_no_entry :
    parse_english_vocabulary ["misunderstood".toList, "missverstanden".toList] =
      some [] := by decide

/-- C6: for the three-line input
    `["to compromise", "['komprema?z]", "Kompromisse eingehen"]` (headword and
    bracketed annotation on separate lines) the English parser returns exactly
    the one entry `("to compromise", "Kompromisse eingehen")`. -/
theorem c6_compromise_split_annotation :
    parse_english_vocabulary
      ["to compromise".toList,
       ('[' :: apos :: "komprema?z]".toList),
       "Kompromisse eingehen".toList] =
      some [("to compromise".toList, "Kompromisse eingehen".toList)] := by decide

/-- C5 (counterexample): it is NOT true that every entry produced by
    `parse_english_vocabulary` has a translation of length at least 2.  On
    the input `["to push oneself", ";<a-umlaut>"]` the reflexive pattern 5
    collects the fragment `;<a-umlaut>` and its final `strip('; ')` leaves
    the one-character translation, which is appended without any further
    length check (source lines 506-508). -/
theorem c5_counterexample :
    ¬ (∀ lines r, parse_english_vocabulary lines = some r →
        ∀ e ∈ r, 2 ≤ e.1.length ∧ 2 ≤ e.2.length) := by
  intro h
  have h2 := h ["to push oneself".toList, [';', cjae]]
    [("to push oneself".toList, [cjae])] (by decide)
    ("to push oneself".toList, [cjae]) (by decide)
  have h3 : (2 : Nat) ≤ 1 := by simpa using h2.2
  omega

/-- C2 (counterexample): it is NOT true that the guard exits with a nonzero
    status: with an existing output file and neither `--force` nor `--reset`,
    `main` calls `sys.exit(0)` (source line 984), i.e. exit status zero. -/
theorem c2_counterexample :
    ¬ (∀ code, overwrite_guard false false true = OverwriteOutcome.exitEarly code →
        code ≠ 0) := by
  intro h
  exact h 0 rfl rfl

/-- C2 (amended): if the output file exists and neither `--force` nor
    `--reset` was passed, the program refuses to overwrite — it exits before
    any write is attempted — but with exit status 0; and the guard only lets
    the run proceed past an existing output file when `--force` or `--reset`
    was given. -/
theorem c2_guard_refuses_with_exit_zero :
    overwrite_guard false false true = OverwriteOutcome.exitEarly 0 ∧
    (∀ force reset, overwrite_guard force reset true = OverwriteOutcome.proceed →
      force = true ∨ reset = true) := by
  refine ⟨rfl, ?_⟩
  intro force reset h
  cases force with
  | true => exact Or.inl rfl
  | false =>
    cases reset with
    | true => exact Or.inr rfl
    | false => simp [overwrite_guard] at h

/-- C2 witness: the amended theorem applied at concrete flags. -/
theorem c2_guard_witness :
    overwrite_guard false false true = OverwriteOutcome.exitEarly 0 ∧
    (true = true ∨ false = true) :=
  ⟨c2_guard_refuses_with_exit_zero.1,
   c2_guard_refuses_with_exit_zero.2 true false (by decide)⟩

/-- C9: each line-classification predicate is total on every input string —
    the two predicates that index `text[0]` (modelled with an `Option` that
    is `none` exactly when Python would raise) always return a value, because
    the emptiness/length guards run first — and empty or one-character input
    yields the negative verdict for the likely-German, continuation and
    example-sentence predicates; `should_skip_line` and
    `is_english_sentence` are plain boolean functions on every input. -/
theorem c9_line_predicates_total :
    (∀ t, ∃ b, is_likely_german t = some b) ∧
    (∀ t, ∃ b, is_continuation t = some b) ∧
    (∀ t, should_skip_line t = true ∨ should_skip_line t = false) ∧
    (∀ t, is_english_sentence t = true ∨ is_english_sentence t = false) ∧
    is_likely_german [] = some false ∧
    (∀ c, is_likely_german [c] = some false) ∧
    is_continuation [] = some false ∧
    (∀ c, is_continuation [c] = some false) ∧
    is_english_sentence [] = false ∧
    (∀ c, is_english_sentence [c] = false) := by
  refine ⟨?_, ?_, ?_, ?_, rfl, fun c => rfl, rfl, fun c => rfl, rfl, fun c => rfl⟩
  · intro t
    unfold is_likely_german
    cases t with
    | nil => exact ⟨false, rfl⟩
    | cons c r =>
      repeat' first
      | exact ⟨_, rfl⟩
      | exact absurd ‹c :: r = []› (List.cons_ne_nil c r)
      | split
  · intro t
    unfold is_continuation
    cases t with
    | nil => exact ⟨false, rfl⟩
    | cons c r =>
      repeat' first
      | exact ⟨_, rfl⟩
      | exact absurd ‹c :: r = []› (List.cons_ne_nil c r)
      | split
  · intro t
    cases h : should_skip_line t
    · exact Or.inr rfl
    · exact Or.inl rfl
  · intro t
    cases h : is_english_sentence t
    · exact Or.inr rfl
    · exact Or.inl rfl

/-! ## Lemmas for C7 (the loanword allow-list rule of `is_bad_entry`) -/

/-- Membership transfer for `List.contains` on characters/strings. -/
theorem contains_eq_true_iff_mem {α : Type} [BEq α] [LawfulBEq α]
    (l : List α) (a : α) : l.contains a = true ↔ a ∈ l :=
  List.elem_iff

/-- Every loanword is a nonempty all-ASCII-lowercase word that triggers none
    of the other word-shaped rejection rules. -/
theorem loanword_facts : ∀ w ∈ loanwords,
    w.all isAsciiLowerCh = true ∧
    (germanWordsLLG.any (fun g => (splitWs w).contains g)) = false ∧
    (germanCompounds.any (fun p => containsSub p w)) = false ∧
    w.length ≤ 30 ∧ w ≠ "so".toList ∧ w ≠ [] := by decide

/-- If the case-folded headword is an all-ASCII-lowercase word, the case
    folding of every character of the headword is ASCII lowercase. -/
theorem lower_mem_ascii {eng w : List Char} (hw : pyLower eng = w)
    (hall : w.all isAsciiLowerCh = true) :
    ∀ c ∈ eng, isAsciiLowerCh (lowerCh c) = true := by
  intro c hc
  have hmem : lowerCh c ∈ w := by
    rw [← hw]
    exact List.mem_map_of_mem lowerCh hc
  exact List.all_eq_true.mp hall _ hmem

/-- A character whose case folding is not ASCII lowercase cannot occur in a
    string whose case folding is an all-ASCII-lowercase word. -/
theorem not_contains_of_lower {eng w : List Char} (hw : pyLower eng = w)
    (hall : w.all isAsciiLowerCh = true) (x : Char)
    (hx : isAsciiLowerCh (lowerCh x) = false) : eng.contains x = false := by
  by_contra h
  rw [Bool.not_eq_false, contains_eq_true_iff_mem] at h
  have h2 := lower_mem_ascii hw hall x h
  rw [hx] at h2
  exact absurd h2 (by decide)

/-- Case folding of a whitespace character is not an ASCII lowercase
    letter. -/
theorem pySpace_lower_not_ascii : ∀ c, isPySpace c = true →
    isAsciiLowerCh (lowerCh c) = false := by
  intro c h
  have hc : ((((c = ' ' ∨ c = '\t') ∨ c = '\n') ∨ c = '\x0d') ∨
      c = Char.ofNat 11) ∨ c = Char.ofNat 12 := by
    simpa [isPySpace] using h
  rcases hc with ((((h | h) | h) | h) | h) | h <;> subst h <;> decide

/-- No whitespace occurs in a string whose case folding is an
    all-ASCII-lowercase word. -/
theorem no_space_mem {ger w : List Char} (hw : pyLower ger = w)
    (hall : w.all isAsciiLowerCh = true) :
    ∀ c ∈ ger, isPySpace c = false := by
  intro c hc
  by_contra h
  rw [Bool.not_eq_false] at h
  have h1 := lower_mem_ascii hw hall c hc
  have h2 := pySpace_lower_not_ascii c h
  rw [h2] at h1
  exact absurd h1 (by decide)

/-- A successful attempt of the sentence-leak pattern consumed at least one
    whitespace character (the `\s+` part). -/
theorem pnTryAt_has_space {l : List Char} (h : pnTryAt l = true) :
    ∃ c ∈ l, isPySpace c = true := by
  unfold pnTryAt at h
  rw [List.any_eq_true] at h
  obtain ⟨s, _, hcond⟩ := h
  simp only [Bool.and_eq_true] at hcond
  obtain ⟨-, hsp, -⟩ := hcond
  rw [Bool.not_eq_true'] at hsp
  obtain ⟨c, hc⟩ := List.isEmpty_eq_false_iff_exists_mem.mp hsp
  refine ⟨c, ?_, List.mem_takeWhile_imp hc⟩
  exact List.drop_subset _ _ ((List.takeWhile_prefix _).subset hc)

/-- The sentence-leak search can only succeed on a string containing
    whitespace. -/
theorem pnSearchAux_has_space : ∀ (b : Bool) (l : List Char),
    pnSearchAux b l = true → ∃ c ∈ l, isPySpace c = true := by
  intro b l
  induction l generalizing b with
  | nil => intro h; exact absurd h (by simp [pnSearchAux])
  | cons c t ih =>
    intro h
    unfold pnSearchAux at h
    rw [Bool.or_eq_true] at h
    rcases h with h | h
    · rw [Bool.and_eq_true] at h
      obtain ⟨-, h⟩ := h
      exact pnTryAt_has_space h
    · obtain ⟨d, hd, hsp⟩ := ih _ h
      exact ⟨d, List.mem_cons_of_mem c hd, hsp⟩

/-- The `is_bad_entry` verdict for an allow-listed identical pair: every
    rejection rule is refuted, the entry is kept. -/
theorem is_bad_entry_loanword_kept {eng ger : List Char}
    (heq : pyLower eng = pyLower ger) (hmem : pyLower eng ∈ loanwords) :
    is_bad_entry eng ger = some false := by
  obtain ⟨hall, hwords, hcomp, hlen, hso, hne⟩ := loanword_facts _ hmem
  have hwe : pyLower eng = pyLower eng := rfl
  have hwg : pyLower ger = pyLower eng := heq.symm
  have hne' : eng ≠ [] := by
    intro h
    subst h
    exact hne rfl
  obtain ⟨c, r, hengeq⟩ : ∃ c r, eng = c :: r := by
    cases eng with
    | nil => exact absurd rfl hne'
    | cons c r => exact ⟨c, r, rfl⟩
  have hA : looks_like_german eng = false := by
    unfold looks_like_german
    rw [Bool.or_eq_false_iff]
    refine ⟨?_, hwords⟩
    rw [List.any_eq_false]
    intro x hx
    rw [Bool.not_eq_true]
    refine not_contains_of_lower hwe hall x ?_
    have hx' : x = cjae ∨ x = cjoe ∨ x = cjue ∨ x = cjss ∨ x = cjAe ∨
        x = cjOe ∨ x = cjUe := by simpa [germanIndicators] using hx
    rcases hx' with h | h | h | h | h | h | h <;> subst h <;> decide
  have hD : eng.contains '.' = false :=
    not_contains_of_lower hwe hall '.' (by decide)
  have hI : eng.contains '/' = false :=
    not_contains_of_lower hwe hall '/' (by decide)
  have hE : pnSearch ger = false := by
    by_contra h
    rw [Bool.not_eq_false] at h
    obtain ⟨d, hd, hsp⟩ := pnSearchAux_has_space true ger h
    have h2 := no_space_mem hwg hall d hd
    rw [hsp] at h2
    exact absurd h2 (by decide)
  have hF : startsWithL "to ".toList ger = false := by
    by_contra h
    rw [Bool.not_eq_false] at h
    unfold startsWithL at h
    rw [List.isPrefixOf_iff_prefix] at h
    have hsp : ' ' ∈ ger := h.subset (by decide)
    have h2 := no_space_mem hwg hall ' ' hsp
    exact absurd h2 (by decide)
  have hG : ¬ (30 < ger.length) := by
    have h2 : ger.length = (pyLower ger).length := (List.length_map _ _).symm
    rw [h2, hwg]
    omega
  have hClw : loanwords.contains (pyLower eng) = true :=
    (contains_eq_true_iff_mem _ _).mpr hmem
  subst hengeq
  unfold is_bad_entry
  rw [hA]
  simp only [Bool.false_eq_true, if_false]
  rw [hcomp]
  simp only [Bool.and_false, Bool.false_eq_true, if_false]
  rw [hClw]
  simp only [Bool.not_true, Bool.and_false, Bool.false_eq_true, if_false]
  rw [hD, hE, hF, hI]
  simp only [Bool.false_and, Bool.and_false, Bool.false_eq_true, if_false]
  simp [hG]
  intro h
  exact absurd h hso

/-- The `is_bad_entry` verdict for an identical pair that is not on the
    allow-list: the identical-pair rule (or an earlier rule) fires. -/
theorem is_bad_entry_not_loanword_dropped {eng ger : List Char}
    (heq : pyLower eng = pyLower ger) (hmem : pyLower eng ∉ loanwords) :
    is_bad_entry eng ger = some true := by
  unfold is_bad_entry
  split
  · rfl
  · split
    · rfl
    · split
      · rfl
      · rename_i hcond
        exfalso
        apply hcond
        simp only [Bool.and_eq_true, decide_eq_true_eq, Bool.not_eq_true']
        refine ⟨by rw [heq], ?_⟩
        rw [← Bool.not_eq_true, contains_eq_true_iff_mem]
        exact hmem

/-- C7: with headword and translation identical after case folding, the
    entry is rejected by `is_bad_entry` exactly when the case-folded headword
    is not on the loanword allow-list; in particular `("digital","digital")`
    and `("cover","cover")` are kept and `("happy","happy")` is dropped. -/
theorem c7_identical_pair_kept_iff_loanword :
    (∀ eng ger : List Char, pyLower eng = pyLower ger →
      (is_bad_entry eng ger = some true ↔ pyLower eng ∉ loanwords)) ∧
    is_bad_entry "digital".toList "digital".toList = some false ∧
    is_bad_entry "cover".toList "cover".toList = some false ∧
    is_bad_entry "happy".toList "happy".toList = some true := by
  refine ⟨?_, by decide, by decide, by decide⟩
  intro eng ger heq
  constructor
  · intro hbad hmem
    rw [is_bad_entry_loanword_kept heq hmem] at hbad
    exact absurd (Option.some.inj hbad) (by decide)
  · intro hmem
    exact is_bad_entry_not_loanword_dropped heq hmem

/-- C7 witness: the universal statement applied at a concrete identical pair
    that is not allow-listed. -/
theorem c7_identical_pair_witness :
    is_bad_entry "HAPPY".toList "happy".toList = some true :=
  (c7_identical_pair_kept_iff_loanword.1 "HAPPY".toList "happy".toList
    (by decide)).mpr (by decide)

/-! ## Stripped-string lemmas (for C3, C4, C5) -/

/-- `dropWhile` leaves a list unchanged when its head fails the predicate. -/
theorem dropWhile_eq_self_of_head {p : Char → Bool} {l : List Char}
    (h : ∀ c ∈ l.head?, p c = false) : l.dropWhile p = l := by
  cases l with
  | nil => rfl
  | cons a t =>
    have ha := h a rfl
    simp [List.dropWhile_cons, ha]

/-- The head of a `dropWhile` result fails the predicate. -/
theorem dropWhile_head_false {p : Char → Bool} :
    ∀ {l : List Char} {c : Char}, (l.dropWhile p).head? = some c → p c = false := by
  intro l
  induction l with
  | nil => intro c h; simp at h
  | cons a t ih =>
    intro c h
    by_cases ha : p a = true
    · rw [List.dropWhile_cons, if_pos ha] at h
      exact ih h
    · rw [List.dropWhile_cons, if_neg ha] at h
      cases h
      exact Bool.not_eq_true _ |>.mp ha

/-- A string satisfying the heads/tails condition strips to itself. -/
theorem pyStrip_eq_self {l : List Char} (h : IsStrippedP l) : pyStrip l = l := by
  unfold pyStrip dropTrailing
  rw [dropWhile_eq_self_of_head h.1]
  rw [dropWhile_eq_self_of_head (by rw [List.head?_reverse]; exact h.2)]
  exact List.reverse_reverse l

/-- `dropTrailing` distributes over `cons` when the head survives. -/
theorem dropTrailing_cons {p : Char → Bool} {a : Char} (t : List Char)
    (ha : p a = false) : dropTrailing p (a :: t) = a :: dropTrailing p t := by
  unfold dropTrailing
  rw [List.reverse_cons, List.dropWhile_append]
  by_cases h : (t.reverse.dropWhile p).isEmpty
  · rw [if_pos h]
    rw [List.isEmpty_iff] at h
    rw [h]
    simp [List.dropWhile_cons, ha]
  · rw [if_neg h]
    rw [List.reverse_append]
    rw [Bool.not_eq_true, List.isEmpty_eq_false_iff_exists_mem] at h
    simp

/-- The `strip()` of a list with a non-space head keeps that head. -/
theorem pyStrip_cons {a : Char} {t : List Char} (ha : isPySpace a = false) :
    pyStrip (a :: t) = a :: dropTrailing isPySpace t := by
  unfold pyStrip
  rw [List.dropWhile_cons, if_neg (by simp [ha])]
  exact dropTrailing_cons t ha

/-- The last element of a `dropTrailing` result fails the predicate. -/
theorem dropTrailing_getLast {p : Char → Bool} {l : List Char} :
    ∀ c ∈ (dropTrailing p l).getLast?, p c = false := by
  intro c hc
  unfold dropTrailing at hc
  rw [List.getLast?_reverse] at hc
  exact dropWhile_head_false hc

/-- The head of a `dropTrailing` result is the head of the input (the result
    is a prefix). -/
theorem dropTrailing_head {p : Char → Bool} {l : List Char} {c : Char}
    (h : (dropTrailing p l).head? = some c) : l.head? = some c := by
  have hpre : dropTrailing p l <+: l := by
    unfold dropTrailing
    have hsuf := List.dropWhile_suffix (l := l.reverse) p
    have := hsuf.reverse
    rwa [List.reverse_reverse] at this
  obtain ⟨t, ht⟩ := hpre
  rw [← ht]
  cases hdt : dropTrailing p l with
  | nil => rw [hdt] at h; simp at h
  | cons d m =>
    rw [hdt] at h
    cases h
    rfl

/-- `strip()` always produces a stripped string (idempotence). -/
theorem pyStrip_stripped (l : List Char) : IsStrippedP (pyStrip l) := by
  constructor
  · intro c hc
    unfold pyStrip at hc
    have h2 := dropTrailing_head hc
    exact dropWhile_head_false h2
  · intro c hc
    exact dropTrailing_getLast c hc

/-- `strip()` is idempotent. -/
theorem pyStrip_idem (l : List Char) : pyStrip (pyStrip l) = pyStrip l :=
  pyStrip_eq_self (pyStrip_stripped l)

/-- ASCII letters are not Python whitespace. -/
theorem alpha_not_space {a : Char} (h : isAsciiAlpha a = true) :
    isPySpace a = false := by
  unfold isAsciiAlpha isAsciiLowerCh isAsciiUpperCh at h
  simp only [Bool.or_eq_true, Bool.and_eq_true, decide_eq_true_eq] at h
  by_contra hsp
  rw [Bool.not_eq_false] at hsp
  have h6 : ((((a = ' ' ∨ a = '\t') ∨ a = '\n') ∨ a = '\x0d') ∨
      a = Char.ofNat 11) ∨ a = Char.ofNat 12 := by
    simpa [isPySpace] using hsp
  have hval : a.toNat = 32 ∨ a.toNat = 9 ∨ a.toNat = 10 ∨ a.toNat = 13 ∨
      a.toNat = 11 ∨ a.toNat = 12 := by
    rcases h6 with ((((h | h) | h) | h) | h) | h <;> subst h <;> simp [Char.toNat]
  omega

/-- ASCII letters are not in the `lstrip` junk set (without apostrophe). -/
theorem alpha_not_junkStripSet {a : Char} (h : isAsciiAlpha a = true) :
    junkStripSet a = false := by
  unfold isAsciiAlpha isAsciiLowerCh isAsciiUpperCh at h
  simp only [Bool.or_eq_true, Bool.and_eq_true, decide_eq_true_eq] at h
  by_contra hj
  rw [Bool.not_eq_false] at hj
  unfold junkStripSet isDigitCh at hj
  simp only [Bool.or_eq_true, Bool.and_eq_true, decide_eq_true_eq] at hj
  have hval : a.toNat = 42 ∨ a.toNat = 34 ∨ (48 ≤ a.toNat ∧ a.toNat ≤ 57) ∨
      a.toNat = 32 := by
    rcases hj with ((h' | h') | h') | h'
    · left; subst h'; rfl
    · right; left; rw [h']; rfl
    · right; right; left; exact h'
    · right; right; right; subst h'; rfl
  omega

/-- ASCII letters are not in the `lstrip` junk set (with apostrophe). -/
theorem alpha_not_junkStripSetA {a : Char} (h : isAsciiAlpha a = true) :
    junkStripSetA a = false := by
  unfold junkStripSetA
  rw [alpha_not_junkStripSet h]
  simp only [Bool.false_or]
  unfold isAsciiAlpha isAsciiLowerCh isAsciiUpperCh at h
  simp only [Bool.or_eq_true, Bool.and_eq_true, decide_eq_true_eq] at h
  by_contra hj
  rw [Bool.not_eq_false, decide_eq_true_eq] at hj
  have : a.toNat = 39 := by rw [hj]; rfl
  omega

/-- For a group starting with an ASCII letter, the `strip().lstrip(junk)`
    post-processing is just `strip()`, and the result is stripped with the
    same letter at its head. -/
theorem strip_lstrip_of_alpha {a : Char} {t : List Char} (junk : Char → Bool)
    (ha : isAsciiAlpha a = true) (hjunk : junk a = false) :
    pyLStrip junk (pyStrip (a :: t)) = pyStrip (a :: t) ∧
    IsStrippedP (pyStrip (a :: t)) ∧
    (pyStrip (a :: t)).head? = some a := by
  have hsp := alpha_not_space ha
  have hstrip := @pyStrip_cons a t hsp
  refine ⟨?_, pyStrip_stripped _, by rw [hstrip]; rfl⟩
  rw [hstrip]
  unfold pyLStrip
  rw [List.dropWhile_cons, if_neg (by simp [hjunk])]

/-- Case folding of a whitespace character is the identity. -/
theorem lowerCh_space_eq {c : Char} (h : isPySpace c = true) : lowerCh c = c := by
  have h6 : ((((c = ' ' ∨ c = '\t') ∨ c = '\n') ∨ c = '\x0d') ∨
      c = Char.ofNat 11) ∨ c = Char.ofNat 12 := by
    simpa [isPySpace] using h
  rcases h6 with ((((h' | h') | h') | h') | h') | h' <;> subst h' <;> decide

/-! ## Head shape of the pattern matchers (for the headword invariant) -/

/-- The lazily-extended group of pattern 1 starts with the seed letter. -/
theorem p1LazyExt_head {c0 : Char} :
    ∀ {midRev rest g g2 : List Char}, p1LazyExt c0 midRev rest = some (g, g2) →
      ∃ t, g = c0 :: t := by
  intro midRev rest
  induction rest generalizing midRev with
  | nil => intro g g2 h; simp [p1LazyExt] at h
  | cons c r ih =>
    intro g g2 h
    unfold p1LazyExt at h
    split at h
    · split at h
      · simp only [Option.some.injEq, Prod.mk.injEq] at h
        exact ⟨_, h.1.symm⟩
      · exact ih h
    · simp at h

/-- Pattern 1 groups start with an ASCII letter. -/
theorem matchPat1_head {line g1 g2 : List Char}
    (h : matchPat1 line = some (g1, g2)) :
    ∃ a t, g1 = a :: t ∧ isAsciiAlpha a = true := by
  unfold matchPat1 at h
  split at h
  case _ c rest _ =>
    split at h
    · obtain ⟨t, ht⟩ := p1LazyExt_head h
      exact ⟨c, t, ht, by assumption⟩
    · simp at h
  case _ => simp at h

/-- The first-alternate group starts with an ASCII letter. -/
theorem matchPatA2_head {line g : List Char} (h : matchPatA2 line = some g) :
    ∃ a t, g = a :: t ∧ isAsciiAlpha a = true := by
  simp only [matchPatA2.eq_def] at h
  repeat' split at h
  all_goals simp only [reduceCtorEq, Option.some.injEq] at h
  all_goals exact ⟨_, _, h.symm, by assumption⟩

/-- The second-alternate group starts with an ASCII letter. -/
theorem matchPatA3_head {line g : List Char} (h : matchPatA3 line = some g) :
    ∃ a t, g = a :: t ∧ isAsciiAlpha a = true := by
  simp only [matchPatA3.eq_def] at h
  repeat' split at h
  all_goals simp only [reduceCtorEq, Option.some.injEq] at h
  all_goals exact ⟨_, _, h.symm, by assumption⟩

/-- The pattern-4 group starts with an ASCII letter. -/
theorem matchPat4_head {line g : List Char} (h : matchPat4 line = some g) :
    ∃ a t, g = a :: t ∧ isAsciiAlpha a = true := by
  simp only [matchPat4.eq_def] at h
  repeat' split at h
  all_goals simp only [reduceCtorEq, Option.some.injEq] at h
  all_goals exact ⟨_, _, h.symm, by assumption⟩

/-- The lazily-extended lookahead word group starts with the seed letter. -/
theorem wmLazyExt_head {c0 : Char} :
    ∀ {midRev rest g : List Char}, wmLazyExt c0 midRev rest = some g →
      ∃ t, g = c0 :: t := by
  intro midRev rest
  induction rest generalizing midRev with
  | nil => intro g h; simp [wmLazyExt] at h
  | cons c r ih =>
    intro g h
    unfold wmLazyExt at h
    split at h
    · split at h
      · simp only [Option.some.injEq] at h
        exact ⟨_, h.symm⟩
      · exact ih h
    · simp at h

/-- The lookahead word group starts with an ASCII letter. -/
theorem wordMatchP2_head {line g : List Char} (h : wordMatchP2 line = some g) :
    ∃ a t, g = a :: t ∧ isAsciiAlpha a = true := by
  unfold wordMatchP2 at h
  split at h
  case _ c rest _ =>
    split at h
    · obtain ⟨t, ht⟩ := wmLazyExt_head h
      exact ⟨c, t, ht, by assumption⟩
    · simp at h
  case _ => simp at h

/-- The pattern-3 group starts with an ASCII letter. -/
theorem matchInline_head {line g1 g2 : List Char}
    (h : matchInline line = some (g1, g2)) :
    ∃ a t, g1 = a :: t ∧ isAsciiAlpha a = true := by
  simp only [matchInline.eq_def] at h
  repeat' split at h
  all_goals simp only [reduceCtorEq, Option.some.injEq, Prod.mk.injEq] at h
  all_goals exact ⟨_, _, h.1.symm, by assumption⟩

/-- A reflexive-pattern match strips to a string of length at least two. -/
theorem reflexiveMatch_strip {line : List Char} (h : reflexiveMatch line = true) :
    2 ≤ (pyStrip line).length := by
  unfold reflexiveMatch at h
  split at h
  case _ c1 c2 c3 rest =>
    simp only [Bool.and_eq_true, decide_eq_true_eq] at h
    have ht : lowerCh c1 = 't' := h.1.1.1
    have ho : lowerCh c2 = 'o' := h.1.1.2
    have hc1 : isPySpace c1 = false := by
      by_contra hh
      rw [Bool.not_eq_false] at hh
      have he := lowerCh_space_eq hh
      rw [he.symm.trans ht] at hh
      exact absurd hh (by decide)
    have hc2 : isPySpace c2 = false := by
      by_contra hh
      rw [Bool.not_eq_false] at hh
      have he := lowerCh_space_eq hh
      rw [he.symm.trans ho] at hh
      exact absurd hh (by decide)
    rw [pyStrip_cons hc1, dropTrailing_cons _ hc2]
    simp
  case _ => exact absurd h (by simp)

/-! ## The headword invariant of every produced entry -/

/-- Constructor for `HeadOK` from facts about the headword. -/
theorem headOK_mk {e g : List Char} (h1 : IsStrippedP e) (h2 : 2 ≤ e.length) :
    HeadOK (e, g) := ⟨h1, h2⟩

/-- Marker application preserves strippedness of a nonempty stripped word. -/
theorem applyMarker_stripped {line ew0 : List Char} {a : Char} {x : List Char}
    (hx : ew0 = a :: x) (hstr : IsStrippedP ew0) :
    IsStrippedP (applyMarker line ew0) := by
  unfold applyMarker
  split
  · constructor
    · intro c hc
      rw [hx] at hc
      simp only [List.cons_append, List.head?_cons, Option.mem_def,
        Option.some.injEq] at hc
      subst hc
      exact hstr.1 _ (by rw [hx]; simp)
    · intro c hc
      rw [List.getLast?_append_of_ne_nil _ (by simp)] at hc
      have hsuffix : ∀ m : List Char, (' ' :: '(' :: (m ++ [')'])) =
          ([' ', '('] ++ (m ++ [')'])) := fun _ => rfl
      rw [hsuffix, List.getLast?_append_of_ne_nil _ (by simp),
        List.getLast?_concat] at hc
      simp only [Option.mem_def, Option.some.injEq] at hc
      subst hc
      decide
  · exact hstr

/-- Entries produced by the main branch satisfy the headword invariant. -/
theorem bigBranch_entry {g1 : List Char} {rest : List (List Char)}
    {e g : List Char} {k : Nat}
    (halpha : ∃ a t, g1 = a :: t ∧ isAsciiAlpha a = true)
    (h : bigBranch g1 rest = some (some (e, g), k)) : HeadOK (e, g) := by
  obtain ⟨a, t, rfl, ha⟩ := halpha
  obtain ⟨hid, hstr, -⟩ :=
    strip_lstrip_of_alpha junkStripSet ha (alpha_not_junkStripSet ha)
  simp only [bigBranch] at h
  rw [hid] at h
  split at h
  · simp at h
  · rename_i hlen
    split at h
    · simp at h
    · split at h
      · simp at h
      · split at h
        · simp only [Option.some.injEq, Prod.mk.injEq] at h
          obtain ⟨⟨he, -⟩, -⟩ := h
          subst he
          exact headOK_mk hstr (by omega)
        · simp at h

/-- Entries produced by pattern 7 satisfy the headword invariant. -/
theorem step_p7_entry {line : List Char} {rest : List (List Char)}
    {e g : List Char} (h : step_p7 line rest = some (some (e, g))) :
    HeadOK (e, g) := by
  simp only [step_p7] at h
  split at h
  · simp at h
  · split at h
    · rename_i hlen
      split at h
      · simp at h
      · split at h
        · simp at h
        · split at h
          · simp only [Option.some.injEq, Prod.mk.injEq] at h
            obtain ⟨he, -⟩ := h
            subst he
            exact headOK_mk (pyStrip_stripped _) (by omega)
          · simp at h
    · simp at h

/-- Entries produced by pattern 3 satisfy the headword invariant. -/
theorem step_p3_entry {line e g : List Char} (h : step_p3 line = some (e, g)) :
    HeadOK (e, g) := by
  simp only [step_p3] at h
  split at h
  case _ g1 g2 heq =>
    obtain ⟨a, t, rfl, ha⟩ := matchInline_head heq
    obtain ⟨hid, hstr, -⟩ :=
      strip_lstrip_of_alpha junkStripSet ha (alpha_not_junkStripSet ha)
    rw [hid] at h
    split at h
    · rename_i hcond
      simp only [Bool.and_eq_true, decide_eq_true_eq] at hcond
      simp only [Option.some.injEq, Prod.mk.injEq] at h
      obtain ⟨he, -⟩ := h
      subst he
      exact headOK_mk hstr hcond.2
    · simp at h
  case _ => simp at h

/-- Entries produced by pattern 5 satisfy the headword invariant. -/
theorem step_p5_entry {line : List Char} {rest : List (List Char)}
    {e g : List Char} (h : step_p5 line rest = some (some (e, g))) :
    HeadOK (e, g) := by
  simp only [step_p5] at h
  split at h
  · rename_i hrefl
    split at h
    · simp at h
    · split at h
      · simp at h
      · simp only [Option.some.injEq, Prod.mk.injEq] at h
        obtain ⟨he, -⟩ := h
        subst he
        exact headOK_mk (pyStrip_stripped _) (reflexiveMatch_strip hrefl)
  · simp at h

/-- Entries produced by pattern 6 satisfy the headword invariant. -/
theorem step_p6_entry {line : List Char} {rest : List (List Char)}
    {e g : List Char} (h : step_p6 line rest = some (e, g)) :
    HeadOK (e, g) := by
  simp only [step_p6] at h
  split at h
  · simp at h
  · split at h
    · rename_i hlen
      split at h
      · split at h
        · simp at h
        · split at h
          · split at h
            · simp only [Option.some.injEq, Prod.mk.injEq] at h
              obtain ⟨he, -⟩ := h
              subst he
              simp only [Bool.and_eq_true, decide_eq_true_eq] at hlen
              exact headOK_mk (pyStrip_stripped _) (by omega)
            · simp at h
          · simp at h
      · simp at h
    · simp at h

/-- Entries produced by pattern 2 satisfy the headword invariant. -/
theorem step_p2_entry {line : List Char} {rest : List (List Char)}
    {e g : List Char} (h : step_p2 line rest = some (P2Res.taken (some (e, g)))) :
    HeadOK (e, g) := by
  simp only [step_p2] at h
  split at h
  · simp at h
  · split at h
    · simp at h
    · split at h
      · simp at h
      · rename_i g1 heq
        obtain ⟨a, t, rfl, ha⟩ := wordMatchP2_head heq
        obtain ⟨hid, hstr, hhead⟩ :=
          strip_lstrip_of_alpha junkStripSetA ha (alpha_not_junkStripSetA ha)
        rw [hid] at h
        split at h
        · rename_i hlen
          split at h
          · simp at h
          · split at h
            · simp at h
            · split at h
              · simp at h
              · split at h
                · simp only [Option.some.injEq, P2Res.taken.injEq,
                    Prod.mk.injEq] at h
                  obtain ⟨he, -⟩ := h
                  subst he
                  simp only [Bool.and_eq_true, decide_eq_true_eq] at hlen
                  obtain ⟨x, hx⟩ : ∃ x, pyStrip (a :: t) = a :: x := by
                    cases hps : pyStrip (a :: t) with
                    | nil => rw [hps] at hhead; simp at hhead
                    | cons b y =>
                      rw [hps] at hhead
                      simp only [List.head?_cons, Option.some.injEq] at hhead
                      subst hhead
                      exact ⟨y, rfl⟩
                  exact headOK_mk (applyMarker_stripped hx hstr) hlen.1
                · simp at h
        · simp at h

/-- Every entry emitted by one step of the scanner satisfies the headword
    invariant. -/
theorem stepLine_entry {line : List Char} {rest : List (List Char)}
    {e g : List Char} {k : Nat}
    (h : stepLine line rest = some (some (e, g), k)) : HeadOK (e, g) := by
  simp only [stepLine] at h
  split at h
  · simp at h
  · split at h
    · simp at h
    · split at h
      case _ g1 g2 heq => exact bigBranch_entry (matchPat1_head heq) h
      case _ =>
        split at h
        case _ g1 heq => exact bigBranch_entry (matchPatA2_head heq) h
        case _ =>
          split at h
          case _ g1 heq => exact bigBranch_entry (matchPatA3_head heq) h
          case _ =>
            split at h
            · simp at h
            case _ e1 heq =>
              simp only [Option.some.injEq, Prod.mk.injEq] at h
              obtain ⟨he, -⟩ := h
              rw [he] at heq
              exact step_p7_entry heq
            case _ =>
              split at h
              case _ e1 heq =>
                simp only [Option.some.injEq, Prod.mk.injEq] at h
                obtain ⟨he, -⟩ := h
                rw [he] at heq
                exact step_p3_entry heq
              case _ =>
                split at h
                case _ g1 heq => exact bigBranch_entry (matchPat4_head heq) h
                case _ =>
                  split at h
                  · simp at h
                  case _ e1 heq =>
                    simp only [Option.some.injEq, Prod.mk.injEq] at h
                    obtain ⟨he, -⟩ := h
                    rw [he] at heq
                    exact step_p2_entry heq
                  case _ =>
                    split at h
                    · simp at h
                    case _ e1 heq =>
                      simp only [Option.some.injEq, Prod.mk.injEq] at h
                      obtain ⟨he, -⟩ := h
                      rw [he] at heq
                      exact step_p5_entry heq
                    case _ =>
                      split at h
                      case _ e1 heq =>
                        simp only [Option.some.injEq, Prod.mk.injEq] at h
                        obtain ⟨he, -⟩ := h
                        rw [he] at heq
                        exact step_p6_entry heq
                      case _ => simp at h

/-! ## From the scanner invariant to the final entry list -/

/-- Association-list lookup only returns stored pairs. -/
theorem lookup_mem : ∀ {l : List (Char × Char)} {c d : Char},
    l.lookup c = some d → (c, d) ∈ l := by
  intro l
  induction l with
  | nil => intro c d h; simp [List.lookup] at h
  | cons p rest ih =>
    intro c d h
    obtain ⟨k, b⟩ := p
    simp only [List.lookup] at h
    split at h
    · rename_i hck
      simp only [Option.some.injEq] at h
      subst h
      rw [List.mem_cons]
      left
      rw [beq_iff_eq] at hck
      rw [hck]
    · exact List.mem_cons_of_mem _ (ih h)

/-- Lowercasing never turns a non-space character into whitespace. -/
theorem lowerCh_not_space {c : Char} (h : isPySpace c = false) :
    isPySpace (lowerCh c) = false := by
  unfold lowerCh
  cases hl : lowerPairs.lookup c with
  | none => simpa using h
  | some d =>
    have hm := lookup_mem hl
    have hall : ∀ p ∈ lowerPairs, isPySpace p.2 = false := by decide
    simpa using hall _ hm

/-- Lowercasing preserves strippedness. -/
theorem lower_stripped {l : List Char} (h : IsStrippedP l) :
    IsStrippedP (pyLower l) := by
  constructor
  · intro c hc
    unfold pyLower at hc
    rw [List.head?_map] at hc
    cases hh : l.head? with
    | none => rw [hh] at hc; simp at hc
    | some a =>
      rw [hh] at hc
      simp only [Option.map_some', Option.mem_def, Option.some.injEq] at hc
      subst hc
      exact lowerCh_not_space (h.1 a (by rw [hh]; rfl))
  · intro c hc
    unfold pyLower at hc
    rw [List.getLast?_map] at hc
    cases hh : l.getLast? with
    | none => rw [hh] at hc; simp at hc
    | some a =>
      rw [hh] at hc
      simp only [Option.map_some', Option.mem_def, Option.some.injEq] at hc
      subst hc
      exact lowerCh_not_space (h.2 a (by rw [hh]; rfl))

/-- Every entry of a successful scan satisfies the headword invariant. -/
theorem scanGo_entry : ∀ (fuel : Nat) (lines : List (List Char))
    (v : List (List Char × List Char)), scanGo fuel lines = some v →
    ∀ p ∈ v, HeadOK p := by
  intro fuel
  induction fuel with
  | zero =>
    intro lines v h p hp
    cases lines with
    | nil =>
      simp only [scanGo, Option.some.injEq] at h
      subst h
      simp at hp
    | cons a b => simp [scanGo] at h
  | succ n ih =>
    intro lines v h p hp
    cases lines with
    | nil =>
      simp only [scanGo, Option.some.injEq] at h
      subst h
      simp at hp
    | cons raw rest =>
      simp only [scanGo] at h
      split at h
      · simp at h
      · rename_i eopt extra heq
        split at h
        · simp at h
        · rename_i tail heq2
          split at h
          · rename_i e
            simp only [Option.some.injEq] at h
            subst h
            rcases List.mem_cons.mp hp with h1 | h2
            · subst h1
              obtain ⟨e1, e2⟩ := p
              exact stepLine_entry heq
            · exact ih _ _ heq2 p h2
          · simp only [Option.some.injEq] at h
            subst h
            exact ih _ _ heq2 p hp

/-- The bad-entry filter only keeps entries of its input. -/
theorem filterBadEntries_mem : ∀ {l r : List (List Char × List Char)},
    filterBadEntries l = some r → ∀ p ∈ r, p ∈ l := by
  intro l
  induction l with
  | nil =>
    intro r h p hp
    simp only [filterBadEntries, Option.some.injEq] at h
    subst h
    simp at hp
  | cons eg rest ih =>
    intro r h p hp
    obtain ⟨e, g⟩ := eg
    simp only [filterBadEntries] at h
    split at h
    · simp at h
    · split at h
      · simp at h
      · rename_i r0 heq
        split at h
        · simp only [Option.some.injEq] at h
          subst h
          exact List.mem_cons_of_mem _ (ih heq p hp)
        · simp only [Option.some.injEq] at h
          subst h
          rcases List.mem_cons.mp hp with h1 | h2
          · subst h1; exact List.mem_cons_self _ _
          · exact List.mem_cons_of_mem _ (ih heq p h2)

/-- The deduplication pass only keeps entries of its input. -/
theorem dedupGo_mem : ∀ {l : List (List Char × List Char)}
    {seen : List (List Char)} {p}, p ∈ dedupGo seen l → p ∈ l := by
  intro l
  induction l with
  | nil => intro seen p hp; simp [dedupGo] at hp
  | cons e rest ih =>
    intro seen p hp
    simp only [dedupGo] at hp
    split at hp
    · exact List.mem_cons_of_mem _ (ih hp)
    · rcases List.mem_cons.mp hp with h1 | h2
      · subst h1; exact List.mem_cons_self _ _
      · exact List.mem_cons_of_mem _ (ih h2)

/-- Every entry surviving the pre-deduplication pipeline satisfies the
    headword invariant. -/
theorem pre_dedup_headOK {lines : List (List Char)}
    {v : List (List Char × List Char)} (h : pre_dedup_vocabulary lines = some v) :
    ∀ p ∈ v, HeadOK p := by
  unfold pre_dedup_vocabulary at h
  split at h
  · simp at h
  · rename_i vocab heq
    unfold scanLines at heq
    intro p hp
    exact scanGo_entry _ _ _ heq p (filterBadEntries_mem h p hp)

/-- Every entry of a successful parse satisfies the headword invariant. -/
theorem parse_entries_headOK {lines : List (List Char)}
    {r : List (List Char × List Char)}
    (h : parse_english_vocabulary lines = some r) : ∀ p ∈ r, HeadOK p := by
  unfold parse_english_vocabulary at h
  split at h
  · simp at h
  · rename_i filtered heq
    simp only [Option.some.injEq] at h
    subst h
    intro p hp
    exact pre_dedup_headOK heq p (dedupGo_mem hp)

/-- `keepFirstGo` never emits an entry whose key is already seen. -/
theorem keepFirstGo_not_seen {key : List Char × List Char → List Char} :
    ∀ {seen : List (List Char)} {l p}, p ∈ keepFirstGo key seen l →
      seen.contains (key p) = false := by
  intro seen l
  induction l generalizing seen with
  | nil => intro p hp; simp [keepFirstGo] at hp
  | cons e rest ih =>
    intro p hp
    simp only [keepFirstGo] at hp
    split at hp
    · exact ih hp
    · rename_i hct
      rw [Bool.not_eq_true] at hct
      rcases List.mem_cons.mp hp with h1 | h2
      · subst h1; exact hct
      · have hns := ih h2
        by_contra hcc
        rw [Bool.not_eq_false, contains_eq_true_iff_mem] at hcc
        rw [Bool.eq_false_iff] at hns
        exact hns ((contains_eq_true_iff_mem _ _).mpr (List.mem_cons_of_mem _ hcc))

/-- The keys of a `keepFirstGo` result are pairwise distinct. -/
theorem keepFirstGo_pairwise {key : List Char × List Char → List Char} :
    ∀ (seen : List (List Char)) (l : List (List Char × List Char)),
      List.Pairwise (fun p q => key p ≠ key q) (keepFirstGo key seen l) := by
  intro seen l
  induction l generalizing seen with
  | nil => exact List.Pairwise.nil
  | cons e rest ih =>
    simp only [keepFirstGo]
    split
    · exact ih seen
    · refine List.Pairwise.cons ?_ (ih _)
      intro p hp hkey
      have hns := keepFirstGo_not_seen hp
      have hmem : key p ∈ (key e :: seen) := by
        rw [← hkey]
        exact List.mem_cons_self _ _
      rw [Bool.eq_false_iff] at hns
      exact hns ((contains_eq_true_iff_mem _ _).mpr hmem)

/-- On stripped headwords the source key `strip(lower(w))` agrees with the
    spec key `lower(w)`, so `dedupGo` is exactly first-occurrence keeping. -/
theorem dedupGo_eq_keepFirstGo :
    ∀ {l : List (List Char × List Char)} (seen : List (List Char)),
      (∀ p ∈ l, IsStrippedP p.1) →
      dedupGo seen l = keepFirstGo (fun p => pyLower p.1) seen l := by
  intro l
  induction l with
  | nil => intro seen h; rfl
  | cons e rest ih =>
    intro seen h
    have hk : pyStrip (pyLower e.1) = pyLower e.1 :=
      pyStrip_eq_self (lower_stripped (h e (List.mem_cons_self _ _)))
    have hrest : ∀ p ∈ rest, IsStrippedP p.1 :=
      fun p hp => h p (List.mem_cons_of_mem _ hp)
    simp only [dedupGo, keepFirstGo, hk]
    by_cases hc : seen.contains (pyLower e.1) = true
    · rw [if_pos hc, if_pos hc]
      exact ih seen hrest
    · rw [if_neg hc, if_neg hc]
      rw [ih _ hrest]

/-- C4: in the cleaned list returned by `parse_english_vocabulary` no two
    entries share a case-folded headword, and the list is exactly the
    first-occurrence filter (keyed by case-folded headword, scan order) of
    the pre-deduplication entry list. -/
theorem c4_dedup_first_occurrence {lines : List (List Char)}
    {r : List (List Char × List Char)}
    (h : parse_english_vocabulary lines = some r) :
    List.Pairwise (fun p q => pyLower p.1 ≠ pyLower q.1) r ∧
    ∃ v, pre_dedup_vocabulary lines = some v ∧
      r = keepFirst (fun p => pyLower p.1) v := by
  unfold parse_english_vocabulary at h
  split at h
  · simp at h
  · rename_i filtered heq
    simp only [Option.some.injEq] at h
    subst h
    have hstr : ∀ p ∈ filtered, IsStrippedP p.1 :=
      fun p hp => (pre_dedup_headOK heq p hp).1
    refine ⟨?_, filtered, heq, dedupGo_eq_keepFirstGo [] hstr⟩
    rw [dedupGo_eq_keepFirstGo [] hstr]
    exact keepFirstGo_pairwise _ _

/-- C4 witness: on an input whose two blocks yield the same case-folded
    headword `house`, the parse keeps only the first occurrence. -/
theorem c4_witness :
    List.Pairwise (fun p q => pyLower p.1 ≠ pyLower q.1)
      [("house".toList, "Haus".toList)] ∧
    ∃ v, pre_dedup_vocabulary
        ["house [haus] Haus".toList, [], "HOUSE [haus] Heim".toList] = some v ∧
      [("house".toList, "Haus".toList)] =
        keepFirst (fun p => pyLower p.1) v :=
  c4_dedup_first_occurrence (by decide)

/-- C5 (amended): every entry in the list returned by
    `parse_english_vocabulary` has a headword of length at least 2 (the
    translation, by the C5 counterexample, can be shorter). -/
theorem c5_amended_headword_length {lines : List (List Char)}
    {r : List (List Char × List Char)}
    (h : parse_english_vocabulary lines = some r) :
    ∀ e ∈ r, 2 ≤ e.1.length :=
  fun e he => (parse_entries_headOK h e he).2

/-- C5 witness: the amended headword-length bound at a concrete parse. -/
theorem c5_amended_witness :
    2 ≤ ("to compromise".toList, "Kompromisse eingehen".toList).1.length :=
  @c5_amended_headword_length
    ["to compromise".toList, ('[' :: apos :: "komprema?z]".toList),
      "Kompromisse eingehen".toList]
    [("to compromise".toList, "Kompromisse eingehen".toList)] (by decide)
    ("to compromise".toList, "Kompromisse eingehen".toList) (by decide)

/-! ## Round-trip lemmas for C3 -/

/-- `split(sep)` of a separator-free string is the singleton list. -/
theorem splitOnCh_no_sep {sep : Char} : ∀ {l : List Char}, sep ∉ l →
    splitOnCh sep l = [l] := by
  intro l
  induction l with
  | nil => intro hx; rfl
  | cons c r ih =>
    intro h
    have hc : ¬(c = sep) := fun hh => h (by rw [← hh]; exact List.mem_cons_self _ _)
    simp only [splitOnCh]
    rw [if_neg hc, ih (fun hm => h (List.mem_cons_of_mem _ hm))]

/-- `split(sep)` around the first separator. -/
theorem splitOnCh_append {sep : Char} {b : List Char} : ∀ {f : List Char},
    sep ∉ f → splitOnCh sep (f ++ sep :: b) = f :: splitOnCh sep b := by
  intro f
  induction f with
  | nil =>
    intro hx
    simp only [List.nil_append, splitOnCh]
    rw [if_pos trivial]
  | cons c r ih =>
    intro h
    have hc : ¬(c = sep) := fun hh => h (by rw [← hh]; exact List.mem_cons_self _ _)
    simp only [List.cons_append, splitOnCh, List.append_eq]
    rw [if_neg hc, ih (fun hm => h (List.mem_cons_of_mem _ hm))]

/-- `load_anki_file` skips a `#`-headed line. -/
theorem load_cons_hash {t : List Char} {rest : List (List Char)} :
    load_anki_file (('#' :: t) :: rest) = load_anki_file rest := by
  simp only [load_anki_file]
  rw [pyStrip_cons (by decide)]
  rw [if_pos (by simp)]

/-- `load_anki_file` recovers a well-formed body line. -/
theorem load_cons_entry {f b : List Char} {rest : List (List Char)}
    (hsf : IsStrippedP f) (hsb : IsStrippedP b)
    (hlf : 2 ≤ f.length) (hlb : 2 ≤ b.length)
    (htf : '\t' ∉ f) (htb : '\t' ∉ b) (hhash : f.head? ≠ some '#') :
    load_anki_file ((f ++ '\t' :: b) :: rest) =
      (f, b) :: load_anki_file rest := by
  obtain ⟨fc, ft, rfl⟩ : ∃ c t, f = c :: t := by
    cases f with
    | nil => simp at hlf
    | cons c t => exact ⟨c, t, rfl⟩
  obtain ⟨bc, bt, rfl⟩ : ∃ c t, b = c :: t := by
    cases b with
    | nil => simp at hlb
    | cons c t => exact ⟨c, t, rfl⟩
  have hself : pyStrip ((fc :: ft) ++ '\t' :: (bc :: bt)) =
      (fc :: ft) ++ '\t' :: (bc :: bt) := by
    apply pyStrip_eq_self
    constructor
    · intro c hc
      simp only [List.cons_append, List.head?_cons, Option.mem_def,
        Option.some.injEq] at hc
      subst hc
      exact hsf.1 _ rfl
    · intro c hc
      rw [List.getLast?_append_of_ne_nil _ (by simp),
        List.getLast?_cons_cons] at hc
      exact hsb.2 _ hc
  have hfc : ¬(fc = '#') := by
    intro hh
    exact hhash (by rw [hh]; rfl)
  simp only [load_anki_file]
  rw [hself]
  rw [if_neg (by simp [hfc])]
  rw [splitOnCh_append htf, splitOnCh_no_sep htb]

/-- One `createBody` step on the curated path for a fresh well-formed
    entry. -/
theorem createBody_cons_true {seen : List (List Char × List Char)}
    {f b : List Char} {rest : List (List Char × List Char)}
    (hstrf : pyStrip f = f) (hstrb : pyStrip b = b)
    (hlf : 2 ≤ f.length) (hlb : 2 ≤ b.length)
    (hseen : seen.contains (pyLower f, pyLower b) = false) :
    createBody true seen ((f, b) :: rest) =
      ((f ++ '\t' :: b) ::
         (createBody true ((pyLower f, pyLower b) :: seen) rest).1,
       (createBody true ((pyLower f, pyLower b) :: seen) rest).2 + 1) := by
  have hf : f.isEmpty = false := by
    cases f with
    | nil => simp at hlf
    | cons a t => rfl
  have hb : b.isEmpty = false := by
    cases b with
    | nil => simp at hlb
    | cons a t => rfl
  simp only [createBody, hstrf, hstrb]
  rw [if_neg (by rw [hseen]; simp)]
  rw [if_neg (by simp [hf, hb]; omega)]
  rw [if_pos trivial]

/-- The seen-set-generalised round trip through the curated body writer. -/
theorem createBody_load_roundtrip :
    ∀ {v : List (List Char × List Char)} {seen : List (List Char × List Char)},
      (∀ e ∈ v, GoodEntry e) →
      (∀ e ∈ v, seen.contains (pyLower e.1, pyLower e.2) = false) →
      (v.map (fun e => (pyLower e.1, pyLower e.2))).Nodup →
      load_anki_file (createBody true seen v).1 = v := by
  intro v
  induction v with
  | nil => intro seen _ _ _; rfl
  | cons e rest ih =>
    intro seen hgood hseen hnodup
    obtain ⟨f, b⟩ := e
    obtain ⟨h1, h2, h3, h4, h5, h6, h7, h8, h9⟩ :=
      hgood _ (List.mem_cons_self _ _)
    have hsf : IsStrippedP f := (show pyStrip f = f from h1) ▸ pyStrip_stripped f
    have hsb : IsStrippedP b := (show pyStrip b = b from h2) ▸ pyStrip_stripped b
    rw [createBody_cons_true h1 h2 h3 h4 (hseen _ (List.mem_cons_self _ _))]
    rw [load_cons_entry hsf hsb h3 h4 h5 h6 h9]
    congr 1
    apply ih
    · exact fun e he => hgood e (List.mem_cons_of_mem _ he)
    · intro e he
      simp only [List.map_cons, List.nodup_cons] at hnodup
      have hne : (pyLower e.1, pyLower e.2) ≠ (pyLower f, pyLower b) := by
        intro hk
        exact hnodup.1 (hk ▸ List.mem_map_of_mem _ he)
      have h0 := hseen e (List.mem_cons_of_mem _ he)
      rw [Bool.eq_false_iff]
      intro hc
      rw [contains_eq_true_iff_mem] at hc
      rcases List.mem_cons.mp hc with hD | hE
      · exact hne hD
      · rw [Bool.eq_false_iff] at h0
        exact h0 ((contains_eq_true_iff_mem _ _).mpr hE)
    · simp only [List.map_cons, List.nodup_cons] at hnodup
      exact hnodup.2

/-- `load_anki_file` ignores the four header lines. -/
theorem load_header {d n : List Char} {body : List (List Char)} :
    load_anki_file (ankiHeader d n ++ body) = load_anki_file body := by
  have e1 : ("#separator:Tab".toList : List Char) =
      '#' :: "separator:Tab".toList := rfl
  have e2 : ("#html:false".toList : List Char) = '#' :: "html:false".toList := rfl
  have e3 : ("#deck:".toList ++ d : List Char) = '#' :: ("deck:".toList ++ d) := rfl
  have e4 : ("#notetype:".toList ++ n : List Char) =
      '#' :: ("notetype:".toList ++ n) := rfl
  simp only [ankiHeader, List.cons_append, List.nil_append]
  rw [e1, load_cons_hash, e2, load_cons_hash, e3, load_cons_hash, e4,
    load_cons_hash]

/-- For the curated `english` deck the written lines are the header block
    followed by the curated body. -/
theorem create_anki_file_english {v : List (List Char × List Char)}
    {deck nt : List Char} :
    (create_anki_file v deck nt "english".toList).1 =
      ankiHeader deck nt ++ (createBody true [] v).1 := by
  simp only [create_anki_file, decide_True]

/-- C3 (counterexample): it is NOT true that writing any entry list with
    `create_anki_file` and re-parsing with `load_anki_file` reproduces the
    input: a repeated entry is silently deduplicated by the writer (source
    lines 855-858), so the duplicate is lost. -/
theorem c3_counterexample :
    ¬ (∀ (v : List (List Char × List Char)) (deck nt lang : List Char),
        load_anki_file (create_anki_file v deck nt lang).1 = v) := by
  intro h
  have h2 := h [("ab".toList, "cd".toList), ("ab".toList, "cd".toList)]
    "D".toList "N".toList "english".toList
  exact absurd h2 (by decide)

/-- C3 (amended): for the curated `english` deck, if every entry is
    well-formed (stripped tab- and newline-free fields of length at least
    two, headword not starting with `#`) and the case-folded (headword,
    translation) keys are pairwise distinct, then writing with
    `create_anki_file` and re-parsing with `load_anki_file` reproduces the
    entry list exactly. -/
theorem c3_amended_roundtrip {v : List (List Char × List Char)}
    {deck notetype : List Char}
    (hgood : ∀ e ∈ v, GoodEntry e)
    (hnodup : (v.map (fun e => (pyLower e.1, pyLower e.2))).Nodup) :
    load_anki_file (create_anki_file v deck notetype "english".toList).1 = v := by
  rw [create_anki_file_english, load_header]
  exact createBody_load_roundtrip hgood (fun e he => rfl) hnodup

/-- C3 witness: the amended round trip at a concrete two-entry list. -/
theorem c3_witness :
    (∀ e ∈ [("ab".toList, "cd".toList), ("ef".toList, "gh".toList)],
      GoodEntry e) ∧
    load_anki_file
      (create_anki_file [("ab".toList, "cd".toList), ("ef".toList, "gh".toList)]
        "Deck".toList "Basic".toList "english".toList).1 =
      [("ab".toList, "cd".toList), ("ef".toList, "gh".toList)] :=
  ⟨by decide, c3_amended_roundtrip (by decide) (by decide)⟩

/-- C8: an entry with either field shorter than 2 characters is classified
    Suspicious with the fixed `entryTooShort` reason and zero scores, for any
    translator whatsoever (no translator call is observable); any other entry
    with a successful translator result is Valid exactly when
    0.6 * sequence-similarity + 0.4 * word-overlap reaches the threshold and
    Suspicious otherwise; and the default threshold is 0.3. -/
theorem c8_validation_classification
    (translate : List Char → Option (List Char)) (threshold : ℚ)
    (rawText foreign ocr : List Char) :
    ((foreign.length < 2 ∨ ocr.length < 2) →
      ∀ translate2 : List Char → Option (List Char),
        validate_entry translate2 threshold rawText foreign ocr =
          VOutcome.toSuspicious
            ⟨foreign, ocr, none, 0, none, none, none,
             some VReason.entryTooShort⟩) ∧
    (¬(foreign.length < 2 ∨ ocr.length < 2) →
      ∀ tr : List Char, translate foreign = some tr →
        ((∃ r, validate_entry translate threshold rawText foreign ocr =
            VOutcome.toValid r) ↔
          threshold ≤ 0.6 * similarity_score ocr tr +
            0.4 * word_overlap_score ocr tr) ∧
        (¬(threshold ≤ 0.6 * similarity_score ocr tr +
            0.4 * word_overlap_score ocr tr) →
          ∃ r, validate_entry translate threshold rawText foreign ocr =
            VOutcome.toSuspicious r)) ∧
    default_threshold = 0.3 := by
  refine ⟨?_, ?_, rfl⟩
  · intro hA translate2
    have hcond : (decide (foreign.length < 2) || decide (ocr.length < 2)) = true := by
      rcases hA with h | h
      · simp [h]
      · simp [h]
    simp only [validate_entry]
    rw [if_pos hcond]
  · intro hA tr htr
    have hcond : ¬((decide (foreign.length < 2) || decide (ocr.length < 2)) = true) := by
      simp only [Bool.or_eq_true, decide_eq_true_eq]
      exact hA
    simp only [validate_entry, htr]
    rw [if_neg hcond]
    constructor
    · constructor
      · rintro ⟨r, hr⟩
        by_contra hth
        rw [if_neg hth] at hr
        exact absurd hr (by simp)
      · intro hth
        rw [if_pos hth]
        exact ⟨_, rfl⟩
    · intro hth
      rw [if_neg hth]
      exact ⟨_, rfl⟩

/-- C8 witness: both classification branches at concrete entries. -/
theorem c8_witness :
    (validate_entry (fun x => some x) default_threshold [] "x".toList
        "Haus".toList =
      VOutcome.toSuspicious
        ⟨"x".toList, "Haus".toList, none, 0, none, none, none,
         some VReason.entryTooShort⟩) ∧
    ((∃ r, validate_entry (fun x => some x) default_threshold [] "zwei".toList
        "zwei".toList = VOutcome.toValid r) ↔
      default_threshold ≤ 0.6 * similarity_score "zwei".toList "zwei".toList +
        0.4 * word_overlap_score "zwei".toList "zwei".toList) :=
  ⟨(c8_validation_classification (fun x => some x) default_threshold []
      "x".toList "Haus".toList).1 (Or.inl (by decide)) (fun x => some x),
   ((c8_validation_classification (fun x => some x) default_threshold []
      "zwei".toList "zwei".toList).2.1 (by decide) "zwei".toList rfl).1⟩

/-! ## Lemmas and theorems for C10 -/

/-- The enriched body is one line per entry, in order, as computed by
    `enriched_line_amended`, and `count` equals the number of entries. -/
theorem enrichedBody_lines (results : VResults) :
    ∀ entries : List (List Char × List Char),
      (enrichedBody results entries).1 =
        entries.map (enriched_line_amended results) ∧
      (enrichedBody results entries).2.1 = entries.length := by
  intro entries
  induction entries with
  | nil => exact ⟨rfl, rfl⟩
  | cons e rest ih =>
    obtain ⟨f, t⟩ := e
    constructor
    · simp only [enrichedBody, List.map_cons, enriched_line_amended]
      repeat' split
      all_goals simp [ih.1]
    · simp only [enrichedBody, List.length_cons]
      repeat' split
      all_goals simp [ih.2]

/-- C10 (counterexample): it is NOT true that the enriched file's body
    follows the claimed rule (append the Azure alternative whenever a
    suspicious entry's translator result is non-null and differs
    case-insensitively): the code also strips both sides before comparing
    (source line 336), so a translator result ` haus` for translation `Haus`
    is NOT appended. -/
theorem c10_counterexample :
    ¬ (∀ (entries : List (List Char × List Char)) (results : VResults)
        (deck : List Char),
        (create_enriched_anki_file entries results deck).1 =
          enrichedHeader deck ++ entries.map (enriched_line_claimed results)) := by
  intro h
  have h2 := h [("Haus".toList, "Haus".toList)]
    ⟨[], [⟨"Haus".toList, "Haus".toList, some " haus".toList, 0, none, none,
       none, none⟩], []⟩ "D".toList
  exact absurd h2 (by decide)

/-- C10 (amended): `create_enriched_anki_file` writes the enriched header
    and exactly one body line per input entry, in input order, each computed
    by `enriched_line_amended`: the headword is always the original, and the
    translation is enriched with ` [Azure: ...]` exactly when the entry is
    not in the valid set, is found in the suspicious set (last record
    winning), and that record's translator result is non-empty and differs
    from the original translation after case-folding and stripping; its
    `count` return value equals the number of entries. -/
theorem c10_amended_frame (entries : List (List Char × List Char))
    (results : VResults) (deck : List Char) :
    (create_enriched_anki_file entries results deck).1 =
      enrichedHeader deck ++ entries.map (enriched_line_amended results) ∧
    (create_enriched_anki_file entries results deck).2.1 = entries.length := by
  constructor
  · simp only [create_enriched_anki_file]
    rw [(enrichedBody_lines results entries).1]
  · simp only [create_enriched_anki_file]
    exact (enrichedBody_lines results entries).2

end AnkiVerify
